import Mathlib

/-!
Shallow embedding of the PPU (picture processing unit) of the game-girl
emulator, translated from `src/core/src/ppu/mod.rs`, together with proofs
about the claims of the specification.

The sibling modules of `mod.rs` (`mode.rs`, `map.rs`, `sprite.rs`,
`tile.rs`, `palette.rs` and the crate's `utils.rs`) are not part of the
sources; the definitions taken from them are modelled from the
specification and are marked as such in their doc comments.

Machine integers are represented as `Nat` with explicit masking/modulo
where the source relies on fixed-width behaviour.  Code that can panic
(assertion failures, out-of-bounds array indexing) is embedded as
`Option`-returning functions, with `none` denoting the panic.
-/

namespace GameGirl

/-- Pointwise update of a function-backed byte array. -/
def updf {α : Type} (f : Nat → α) (i : Nat) (x : α) : Nat → α :=
  fun j => if j = i then x else f j

@[simp] theorem updf_same {α : Type} (f : Nat → α) (i : Nat) (x : α) :
    updf f i x i = x := by
  simp [updf]

@[simp] theorem updf_other {α : Type} (f : Nat → α) (i j : Nat) (x : α) (h : j ≠ i) :
    updf f i x j = f j := by
  simp [updf, h]

/-- Modelled from the spec: `utils.rs` is absent from src/.  `get_bit` of the
bit-flag helpers (§9): test bit `b` of a byte. -/
def getBitN (v b : Nat) : Bool := v.testBit b

/-- Modelled from the spec: `utils.rs` is absent from src/.  `set_bit` of the
bit-flag helpers (§9): set bit `b` of a byte. -/
def setBitN (v b : Nat) : Nat := if v.testBit b then v else v + (1 <<< b)

/-- Modelled from the spec: `utils.rs` is absent from src/.  `clear_bit` of
the bit-flag helpers (§9): clear bit `b` of a byte. -/
def clearBitN (v b : Nat) : Nat := if v.testBit b then v - (1 <<< b) else v

/-- Modelled from the spec: `utils.rs` is absent from src/.  The two hardware
variants (monochrome DMG and color CGB, §1 and glossary). -/
inductive GB where
  | DMG : GB
  | CGB : GB
deriving DecidableEq

/-- Modelled from the spec: `utils.rs` is absent from src/.  An RGBA color,
one byte per channel (§3 frame buffer). -/
structure RGBA where
  r : Nat
  g : Nat
  b : Nat
  a : Nat
deriving DecidableEq

/-- Modelled from the spec: `utils.rs` is absent from src/.  Channel accessor
used when copying a color into the flat RGBA pixel row. -/
def RGBA.chan (c : RGBA) (i : Nat) : Nat :=
  match i with
  | 0 => c.r
  | 1 => c.g
  | 2 => c.b
  | _ => c.a

/-- Modelled from the spec: `utils.rs` is absent from src/.  `unpack_u8`
(§4.5): a monochrome palette register packs four 2-bit shade indices,
bits 0-1 = index 0 through bits 6-7 = index 3. -/
def unpack_u8 (v : Nat) : Nat → Nat :=
  fun i => (v >>> (2 * i)) &&& 3

/-- Modelled from the spec: `utils.rs` is absent from src/.  `gbc2rgba`
(§4.5): two consecutive bytes form a little-endian 15-bit RGB555 value; each
5-bit channel is scaled to 8 bits preserving both extremes; alpha is opaque. -/
def gbc2rgba (lo hi : Nat) : RGBA :=
  let v := (lo % 256) + 256 * (hi % 256)
  let r5 := v &&& 31
  let g5 := (v >>> 5) &&& 31
  let b5 := (v >>> 10) &&& 31
  ⟨r5 * 255 / 31, g5 * 255 / 31, b5 * 255 / 31, 255⟩

/-- One scanline of RGBA bytes, indexed by `4 * column + channel`. -/
def Row : Type := Nat → Nat

/-- Copy the four channel bytes of a color into a pixel row at column `x`
(the `for i in 0..COLOR_CHANNELS` loops of the render functions). -/
def writeColor (row : Row) (x : Nat) (c : RGBA) : Row :=
  updf (updf (updf (updf row (4 * x) c.r) (4 * x + 1) c.g) (4 * x + 2) c.b) (4 * x + 3) c.a

/-- Slice comparison `pixel_rgba == color` of `render_sprite_line`: the four
channel bytes at column `x` of the row equal the color. -/
def rowEqColor (row : Row) (x : Nat) (c : RGBA) : Bool :=
  (row (4 * x) == c.r) && (row (4 * x + 1) == c.g) &&
  (row (4 * x + 2) == c.b) && (row (4 * x + 3) == c.a)

/-- Modelled from the spec: `palette.rs` is absent from src/.  The selectable
preset system color schemes for the monochrome variant (§4.5). -/
inductive Palettes where
  | GRAYSCALE : Palettes
  | GREEN : Palettes
deriving DecidableEq

/-- Modelled from the spec: `palette.rs` is absent from src/.  The four-shade
lookup table of a preset scheme (§4.5): shade index 0 is lightest, 3 darkest. -/
def shadeTable (p : Palettes) (i : Nat) : RGBA :=
  match p, i with
  | Palettes.GRAYSCALE, 0 => ⟨255, 255, 255, 255⟩
  | Palettes.GRAYSCALE, 1 => ⟨170, 170, 170, 255⟩
  | Palettes.GRAYSCALE, 2 => ⟨85, 85, 85, 255⟩
  | Palettes.GRAYSCALE, _ => ⟨0, 0, 0, 255⟩
  | Palettes.GREEN, 0 => ⟨224, 248, 208, 255⟩
  | Palettes.GREEN, 1 => ⟨136, 192, 112, 255⟩
  | Palettes.GREEN, 2 => ⟨52, 104, 86, 255⟩
  | Palettes.GREEN, _ => ⟨8, 24, 32, 255⟩

/-- Modelled from the spec: `palette.rs` is absent from src/.  The palette
engine state: the currently selected system color scheme (§4.5). -/
structure Palette where
  sys_pal : Palettes
deriving DecidableEq

/-- Modelled from the spec: `palette.rs` is absent from src/. -/
def Palette.new : Palette := ⟨Palettes.GRAYSCALE⟩

/-- Modelled from the spec: `palette.rs` is absent from src/.  Background
shade lookup table of the current scheme. -/
def Palette.get_bg_pal (p : Palette) : Nat → RGBA := shadeTable p.sys_pal

/-- Modelled from the spec: `palette.rs` is absent from src/.  Sprite shade
lookup table of the current scheme. -/
def Palette.get_spr_pal (p : Palette) (_pal : Nat) : Nat → RGBA := shadeTable p.sys_pal

/-- Modelled from the spec: `palette.rs` is absent from src/. -/
def Palette.set_sys_pal (p : Palette) (pal : Palettes) : Palette := { p with sys_pal := pal }

/-- Modelled from the spec: `tile.rs` is absent from src/.  A tile is 16
bytes encoding an 8×8 grid of 2-bit pixel values (§3). -/
structure Tile where
  bytes : Nat → Nat

/-- Modelled from the spec: `tile.rs` is absent from src/. -/
def Tile.new : Tile := ⟨fun _ => 0⟩

/-- Modelled from the spec: `tile.rs` is absent from src/. -/
def Tile.set_byte (t : Tile) (n v : Nat) : Tile := ⟨updf t.bytes n v⟩

/-- Modelled from the spec: `tile.rs` is absent from src/. -/
def Tile.get_byte (t : Tile) (n : Nat) : Nat := t.bytes n

/-- Modelled from the spec: `tile.rs` is absent from src/.  Decode one
8-pixel row (§2): row `r` is encoded in bytes `2r` and `2r+1`, pixel `col`
takes its low bit from bit `7-col` of the first byte and its high bit from
bit `7-col` of the second. -/
def Tile.get_row (t : Tile) (r : Nat) : Nat → Nat :=
  fun col =>
    (if (t.bytes (2 * r)).testBit (7 - col) then 1 else 0) +
    2 * (if (t.bytes (2 * r + 1)).testBit (7 - col) then 1 else 0)

/-- Modelled from the spec: `map.rs` is absent from src/.  A map cell: tile
index byte plus (color mode) metadata byte (§3). -/
structure Map where
  tile_num : Nat
  metadata : Nat
deriving DecidableEq

/-- Modelled from the spec: `map.rs` is absent from src/. -/
def Map.new : Map := ⟨0, 0⟩

/-- Modelled from the spec: `map.rs` is absent from src/. -/
def Map.set_tile_num (m : Map) (v : Nat) : Map := { m with tile_num := v }

/-- Modelled from the spec: `map.rs` is absent from src/. -/
def Map.get_tile_num (m : Map) : Nat := m.tile_num

/-- Modelled from the spec: `map.rs` is absent from src/. -/
def Map.set_metadata (m : Map) (v : Nat) : Map := { m with metadata := v }

/-- Modelled from the spec: `map.rs` is absent from src/. -/
def Map.get_metadata (m : Map) : Nat := m.metadata

/-- Modelled from the spec: `map.rs` is absent from src/.  Metadata palette
number, bits 0-2 (§3). -/
def Map.get_pal_num (m : Map) : Nat := m.metadata &&& 7

/-- Modelled from the spec: `map.rs` is absent from src/.  Metadata VRAM bank
bit, bit 3 (§3). -/
def Map.get_vram_bank (m : Map) : Nat := if m.metadata.testBit 3 then 1 else 0

/-- Modelled from the spec: `map.rs` is absent from src/.  Horizontal flip
bit of the metadata byte. -/
def Map.is_x_flip (m : Map) : Bool := m.metadata.testBit 5

/-- Modelled from the spec: `map.rs` is absent from src/.  Vertical flip bit
of the metadata byte. -/
def Map.is_y_flip (m : Map) : Bool := m.metadata.testBit 6

/-- Modelled from the spec: `map.rs` is absent from src/.  Background
priority bit of the metadata byte. -/
def Map.is_bg_priority (m : Map) : Bool := m.metadata.testBit 7

/-- Modelled from the spec: `sprite.rs` is absent from src/.  One object
table entry (§3): raw y/x position bytes, tile index, attribute byte, with
the palette selector and the color-mode VRAM bank decoded according to the
hardware variant that performed the write. -/
structure Sprite where
  ybyte : Nat
  xbyte : Nat
  tile_byte : Nat
  flags : Nat
  pal : Nat
  bank : Nat
deriving DecidableEq

/-- Modelled from the spec: `sprite.rs` is absent from src/. -/
def Sprite.new : Sprite := ⟨0, 0, 0, 0, 0, 0⟩

/-- Modelled from the spec: `sprite.rs` is absent from src/.  Byte write into
one of the four OAM bytes of the entry; byte 3 is the attribute byte, whose
palette selector is bit 4 on the monochrome variant and bits 0-2 on the
color variant, and whose VRAM bank bit (bit 3) is color-mode only (§3). -/
def Sprite.set_byte (s : Sprite) (n v : Nat) (mode : GB) : Sprite :=
  match n with
  | 0 => { s with ybyte := v }
  | 1 => { s with xbyte := v }
  | 2 => { s with tile_byte := v }
  | _ => { s with flags := v,
                  pal := if mode = GB.CGB then v &&& 7 else (if v.testBit 4 then 1 else 0),
                  bank := if mode = GB.CGB then (if v.testBit 3 then 1 else 0) else 0 }

/-- Modelled from the spec: `sprite.rs` is absent from src/. -/
def Sprite.get_byte (s : Sprite) (n : Nat) : Nat :=
  match n with
  | 0 => s.ybyte
  | 1 => s.xbyte
  | 2 => s.tile_byte
  | _ => s.flags

/-- Modelled from the spec: `sprite.rs` is absent from src/.  True screen
position: raw position minus 16 (y) / minus 8 (x) (§3). -/
def Sprite.get_coords (s : Sprite) : Int × Int :=
  ((s.xbyte : Int) - 8, (s.ybyte : Int) - 16)

/-- Modelled from the spec: `sprite.rs` is absent from src/. -/
def Sprite.get_tile_num (s : Sprite) : Nat := s.tile_byte

/-- Modelled from the spec: `sprite.rs` is absent from src/. -/
def Sprite.get_pal (s : Sprite) : Nat := s.pal

/-- Modelled from the spec: `sprite.rs` is absent from src/. -/
def Sprite.get_vram_bank (s : Sprite) : Nat := s.bank

/-- Modelled from the spec: `sprite.rs` is absent from src/.  Attribute bit
7 is the priority-over-background flag (set means behind the background). -/
def Sprite.is_above_bkgd (s : Sprite) : Bool := !(s.flags.testBit 7)

/-- Modelled from the spec: `sprite.rs` is absent from src/. -/
def Sprite.is_y_flip (s : Sprite) : Bool := s.flags.testBit 6

/-- Modelled from the spec: `sprite.rs` is absent from src/. -/
def Sprite.is_x_flip (s : Sprite) : Bool := s.flags.testBit 5

/-- Modelled from the spec: `sprite.rs` is absent from src/.  Whether the
sprite's vertical extent (8 or 16 pixels, per the size-control bit)
includes the scanline (§4.4). -/
def Sprite.contains_scanline (s : Sprite) (line : Nat) (is_8x16 : Bool) : Bool :=
  let top_y : Int := (s.ybyte : Int) - 16
  let h : Int := if is_8x16 then 16 else 8
  decide (top_y ≤ (line : Int) ∧ (line : Int) < top_y + h)

/-- Modelled from the spec: `sprite.rs` is absent from src/.  Whether the
sprite's position is on-screen at all (§4.4): the raw position bytes are
non-zero and below the off-screen thresholds. -/
def Sprite.is_onscreen (s : Sprite) : Bool :=
  decide (0 < s.xbyte ∧ s.xbyte < 168 ∧ 0 < s.ybyte ∧ s.ybyte < 160)

/-- Modelled from the spec: `mode.rs` is absent from src/.  The four LCD
modes (§4.1), named as in `mod.rs`'s match arms: `OAMReadMode` is the
object-search mode, `VRAMReadMode` the pixel-transfer mode. -/
inductive LcdModeType where
  | HBLANK : LcdModeType
  | VBLANK : LcdModeType
  | OAMReadMode : LcdModeType
  | VRAMReadMode : LcdModeType
deriving DecidableEq

/-- Modelled from the spec: `mode.rs` is absent from src/.  Numeric id of a
mode, matching the hardware-visible status encoding (§4.2): 0 = HBlank,
1 = VBlank, 2 = object search, 3 = pixel transfer. -/
def LcdModeType.get_idx (m : LcdModeType) : Nat :=
  match m with
  | LcdModeType.HBLANK => 0
  | LcdModeType.VBLANK => 1
  | LcdModeType.OAMReadMode => 2
  | LcdModeType.VRAMReadMode => 3

/-- Modelled from the spec: `mode.rs` is absent from src/.  LCD mode state
machine state (§3): per-line cycle counter (0..455) and scanline counter
(0..153). -/
structure Lcd where
  cycles : Nat
  scanline : Nat
deriving DecidableEq

/-- Modelled from the spec: `mode.rs` is absent from src/. -/
def Lcd.new : Lcd := ⟨0, 0⟩

/-- Modelled from the spec: `mode.rs` is absent from src/.  The mode is
derived from the counters (§4.1): scanlines 144..153 are vertical blank;
within a visible line, object search (fixed 80 cycles), then pixel transfer
(fixed 172 cycles), then horizontal blank for the rest of the 456 cycles. -/
def Lcd.get_mode (l : Lcd) : LcdModeType :=
  if l.scanline ≥ 144 then LcdModeType.VBLANK
  else if l.cycles < 80 then LcdModeType.OAMReadMode
  else if l.cycles < 252 then LcdModeType.VRAMReadMode
  else LcdModeType.HBLANK

/-- Modelled from the spec: `mode.rs` is absent from src/. -/
def Lcd.get_scanline (l : Lcd) : Nat := l.scanline

/-- Modelled from the spec: `mode.rs` is absent from src/.  Result of one
`lcd_step` call (§4.1): the possibly unchanged scanline, the current mode,
and the scanline-advanced / frame-completed flags. -/
structure LcdResults where
  scanline : Nat
  mode : LcdModeType
  line_finished : Bool
  frame_finished : Bool

/-- Modelled from the spec: `mode.rs` is absent from src/.  `lcd_step`
advances the internal counter by the elapsed cycles, crossing as many
456-cycle line boundaries as needed and wrapping the scanline at 154. -/
def Lcd.lcd_step (l : Lcd) (elapsed : Nat) : Lcd × LcdResults :=
  let total := l.cycles + elapsed
  let crossed := total / 456
  let l' : Lcd := ⟨total % 456, (l.scanline + crossed) % 154⟩
  (l', ⟨l'.scanline, l'.get_mode, decide (0 < crossed), decide (154 ≤ l.scanline + crossed)⟩)

/-! VRAM register addresses and region bounds, from `mod.rs`. -/

def LCDC : Nat := 0xFF40
def STAT : Nat := 0xFF41
def SCY : Nat := 0xFF42
def SCX : Nat := 0xFF43
def LY : Nat := 0xFF44
def LYC : Nat := 0xFF45
def BGP : Nat := 0xFF47
def OBP0 : Nat := 0xFF48
def OBP1 : Nat := 0xFF49
def WY : Nat := 0xFF4A
def WX : Nat := 0xFF4B
def VBK : Nat := 0xFF4F
def BGPI : Nat := 0xFF68
def BGPD : Nat := 0xFF69
def OBPI : Nat := 0xFF6A
def OBPD : Nat := 0xFF6B

def TILE_SET : Nat := 0x8000
def TILE_SET_END : Nat := 0x97FF
def TILE_MAP : Nat := 0x9800
def TILE_MAP_END : Nat := 0x9FFF
def OAM_START : Nat := 0xFE00
def OAM_END : Nat := 0xFE9F
def IO_START : Nat := 0xFF00
def IO_END : Nat := 0xFF7F

def MAP_SIZE : Nat := 32
def TILESIZE : Nat := 8
def MAP_PIXELS : Nat := MAP_SIZE * TILESIZE
def VRAM_BANK_NUM : Nat := 2
def TILE_MAP_SIZE : Nat := TILE_MAP_END - TILE_MAP + 1
def TILE_MAP_TBL_SIZE : Nat := TILE_MAP_SIZE / 2
def TILE_NUM : Nat := 384
def OAM_SPR_NUM : Nat := 40
def SPR_PER_LINE : Nat := 10
def OAM_BYTE_SIZE : Nat := 4
def TILE_BYTES : Nat := 16
def SCREEN_WIDTH : Nat := 160
def SCREEN_HEIGHT : Nat := 144
def COLOR_CHANNELS : Nat := 4
def DISP_SIZE : Nat := SCREEN_WIDTH * SCREEN_HEIGHT * COLOR_CHANNELS

/-- The PPU state, from the `PPU` struct of `mod.rs`.  Fixed-size byte
arrays are embedded as functions from the index. -/
structure PPU where
  vram_bank : Nat
  ioreg : Nat → Nat
  screen_buffer : Nat → Nat
  tiles : Nat → Tile
  tile_maps : Nat → Map
  oam : Nat → Sprite
  last_wndw_line : Option Nat
  cgb_bg_pal_data : Nat → Nat
  cgb_spr_pal_data : Nat → Nat
  lcd_mode : Lcd
  palette : Palette

/-- `PPU::new`. -/
def PPU.new : PPU :=
  { vram_bank := 0
    ioreg := fun _ => 0
    screen_buffer := fun _ => 0
    tiles := fun _ => Tile.new
    tile_maps := fun _ => Map.new
    oam := fun _ => Sprite.new
    last_wndw_line := none
    cgb_bg_pal_data := fun _ => 0
    cgb_spr_pal_data := fun _ => 0
    lcd_mode := Lcd.new
    palette := Palette.new }

/-- `PPU::read_io`: read a byte of the I/O register block. -/
def PPU.read_ioreg (s : PPU) (addr : Nat) : Nat := s.ioreg (addr - IO_START)

/-- `PPU::write_io`: write a byte of the I/O register block. -/
def PPU.write_ioreg (s : PPU) (addr v : Nat) : PPU :=
  { s with ioreg := updf s.ioreg (addr - IO_START) v }

/-- `PPU::set_vram_bank`: only bit 0 of the written value is kept. -/
def PPU.set_vram_bank (s : PPU) (val : Nat) : PPU :=
  { s with vram_bank := if val.testBit 0 then 1 else 0 }

/-- `PPU::read_cgb_bg_color`: read the background palette RAM byte at the
low 6 bits of BGPI.  `none` models an out-of-bounds panic of the 64-byte
array indexing (unreachable here since the index is masked to 6 bits). -/
def PPU.read_cgb_bg_color (s : PPU) : Option Nat :=
  let ind := s.read_ioreg BGPI &&& 0x3F
  if ind < 64 then some (s.cgb_bg_pal_data ind) else none

/-- `PPU::write_cgb_bg_color`: write the background palette RAM byte at the
low 6 bits of BGPI; if BGPI bit 7 is set, store `(BGPI + 1) & 0b1011_1111`
back (the u8 addition wraps modulo 256). -/
def PPU.write_cgb_bg_color (s : PPU) (val : Nat) : Option PPU :=
  let bgpi := s.read_ioreg BGPI
  let ind := bgpi &&& 0x3F
  if ind < 64 then
    let s' := { s with cgb_bg_pal_data := updf s.cgb_bg_pal_data ind val }
    if bgpi.testBit 7 then
      some (s'.write_ioreg BGPI (((bgpi + 1) % 256) &&& 0b10111111))
    else
      some s'
  else none

/-- `PPU::read_cgb_spr_color`: read the sprite palette RAM byte at
`OBPI & 0x7F`.  `none` models the out-of-bounds panic of the 64-byte array
indexing, reachable because the mask keeps seven bits. -/
def PPU.read_cgb_spr_color (s : PPU) : Option Nat :=
  let ind := s.read_ioreg OBPI &&& 0x7F
  if ind < 64 then some (s.cgb_spr_pal_data ind) else none

/-- `PPU::write_cgb_spr_color`: write the sprite palette RAM byte at the low
6 bits of OBPI; if OBPI bit 7 is set, store `(OBPI + 1) & 0b1011_1111` back
(the u8 addition wraps modulo 256). -/
def PPU.write_cgb_spr_color (s : PPU) (val : Nat) : Option PPU :=
  let obpi := s.read_ioreg OBPI
  let ind := obpi &&& 0x3F
  if ind < 64 then
    let s' := { s with cgb_spr_pal_data := updf s.cgb_spr_pal_data ind val }
    if obpi.testBit 7 then
      some (s'.write_ioreg OBPI (((obpi + 1) % 256) &&& 0b10111111))
    else
      some s'
  else none

/-- `PPU::write_vram`: decode a memory-mapped write.  `none` models a panic
(the DMG tile-map metadata assertion, or out-of-bounds array indexing). -/
def PPU.write_vram (s : PPU) (addr val : Nat) (mode : GB) : Option PPU :=
  if OAM_START ≤ addr ∧ addr ≤ OAM_END then
    let relative_addr := addr - OAM_START
    let spr_num := relative_addr / OAM_BYTE_SIZE
    let byte_num := relative_addr % OAM_BYTE_SIZE
    some { s with oam := updf s.oam spr_num
                    ((s.oam spr_num).set_byte byte_num val mode) }
  else if TILE_SET ≤ addr ∧ addr ≤ TILE_SET_END then
    let offset := addr - TILE_SET
    let tile_num := offset / TILE_BYTES + s.vram_bank * TILE_NUM
    let byte_num := offset % TILE_BYTES
    if tile_num < VRAM_BANK_NUM * TILE_NUM then
      some { s with tiles := updf s.tiles tile_num ((s.tiles tile_num).set_byte byte_num val) }
    else none
  else if TILE_MAP ≤ addr ∧ addr ≤ TILE_MAP_END then
    let map_addr := addr - TILE_MAP
    if s.vram_bank = 0 then
      some { s with tile_maps := updf s.tile_maps map_addr
                      ((s.tile_maps map_addr).set_tile_num val) }
    else if mode = GB.DMG then
      none
    else
      some { s with tile_maps := updf s.tile_maps map_addr
                      ((s.tile_maps map_addr).set_metadata val) }
  else if IO_START ≤ addr ∧ addr ≤ IO_END then
    if addr = STAT then
      let mask := val &&& 0b11111000
      let stat := s.read_ioreg STAT
      some (s.write_ioreg STAT (mask ||| stat))
    else if addr = BGPD then
      if mode = GB.CGB then s.write_cgb_bg_color val else some (s.write_ioreg addr val)
    else if addr = OBPD then
      if mode = GB.CGB then s.write_cgb_spr_color val else some (s.write_ioreg addr val)
    else if addr = VBK then
      if mode = GB.CGB then some (s.set_vram_bank val) else some (s.write_ioreg addr val)
    else
      some (s.write_ioreg addr val)
  else
    some s

/-- `PPU::read_vram`: decode a memory-mapped read.  `none` models a panic
(the DMG tile-map metadata assertion, or out-of-bounds array indexing). -/
def PPU.read_vram (s : PPU) (addr : Nat) (bank_override : Option Nat) (mode : GB) : Option Nat :=
  let bank := match bank_override with
    | some b => b
    | none => s.vram_bank
  if OAM_START ≤ addr ∧ addr ≤ OAM_END then
    let relative_addr := addr - OAM_START
    let spr_num := relative_addr / OAM_BYTE_SIZE
    let byte_num := relative_addr % OAM_BYTE_SIZE
    some ((s.oam spr_num).get_byte byte_num)
  else if TILE_SET ≤ addr ∧ addr ≤ TILE_SET_END then
    let offset := addr - TILE_SET
    let tile_num := offset / TILE_BYTES + bank * TILE_NUM
    let byte_num := offset % TILE_BYTES
    if tile_num < VRAM_BANK_NUM * TILE_NUM then
      some ((s.tiles tile_num).get_byte byte_num)
    else none
  else if TILE_MAP ≤ addr ∧ addr ≤ TILE_MAP_END then
    let map_addr := addr - TILE_MAP
    if bank = 0 then
      some (s.tile_maps map_addr).get_tile_num
    else if mode = GB.DMG then
      none
    else
      some (s.tile_maps map_addr).get_metadata
  else if IO_START ≤ addr ∧ addr ≤ IO_END then
    if mode = GB.CGB then
      if addr = BGPD then s.read_cgb_bg_color
      else if addr = OBPD then s.read_cgb_spr_color
      else if addr = VBK then some ((0xFE + s.vram_bank) % 256)
      else some (s.read_ioreg addr)
    else
      some (s.read_ioreg addr)
  else
    some 0

/-- Result of `PPU::update`, from the `PpuUpdateResult` struct. -/
structure PpuUpdateResult where
  lcd_result : LcdResults
  interrupt : Bool

/-- `PPU::set_ly`: reads the state machine's scanline; on a change, stores
it in LY (clearing the window continuation marker when the new scanline is
0), recomputes the STAT coincidence bit against LYC, and returns whether a
coincidence interrupt fires. -/
def PPU.set_ly (s : PPU) : PPU × Bool :=
  let line := s.lcd_mode.get_scanline
  let old_ly := s.read_ioreg LY
  if old_ly ≠ line then
    let s := if line = 0 then { s with last_wndw_line := none } else s
    let s := s.write_ioreg LY line
    let stat := s.read_ioreg STAT
    if s.read_ioreg LY = s.read_ioreg LYC then
      let stat := setBitN stat 2
      (s.write_ioreg STAT stat, getBitN stat 6)
    else
      (s.write_ioreg STAT (clearBitN stat 2), false)
  else
    (s, false)

/-- `PPU::update`: advance the mode state machine, update LY and the
coincidence flag, derive the interrupt flag, and mirror the mode id into
the low 2 bits of STAT. -/
def PPU.update (s : PPU) (cycles : Nat) : PPU × PpuUpdateResult :=
  let old_mode := s.lcd_mode.get_mode
  let step := s.lcd_mode.lcd_step cycles
  let s := { s with lcd_mode := step.1 }
  let s_i := s.set_ly
  let s := s_i.1
  let interrupt := s_i.2
  let stat := s.read_ioreg STAT
  let mode := s.lcd_mode.get_mode
  let interrupt :=
    if old_mode ≠ mode then
      match mode with
      | LcdModeType.HBLANK => interrupt || getBitN stat 3
      | LcdModeType.VBLANK => interrupt || getBitN stat 4
      | LcdModeType.VRAMReadMode => interrupt || getBitN stat 5
      | _ => interrupt
    else interrupt
  let stat := (stat &&& 0b11111100) ||| mode.get_idx
  let s := s.write_ioreg STAT stat
  (s, ⟨step.2, interrupt⟩)

/-- `PPU::get_lcd_mode`. -/
def PPU.get_lcd_mode (s : PPU) : LcdModeType := s.lcd_mode.get_mode

/-- Modelled from the spec: `utils.rs` is absent from src/.  A `Point` of
register values. -/
structure Point where
  x : Nat
  y : Nat

/-- `PPU::is_lcd_dspl`. -/
def PPU.is_lcd_dspl (s : PPU) : Bool := getBitN (s.read_ioreg LCDC) 7

/-- `PPU::is_bkgd_dspl`: LCDC bit 0 on the monochrome variant; always true
on the color variant. -/
def PPU.is_bkgd_dspl (s : PPU) (mode : GB) : Bool :=
  if mode ≠ GB.CGB then getBitN (s.read_ioreg LCDC) 0 else true

/-- `PPU::is_wndw_dspl`. -/
def PPU.is_wndw_dspl (s : PPU) : Bool := getBitN (s.read_ioreg LCDC) 5

/-- `PPU::is_sprt_dspl`. -/
def PPU.is_sprt_dspl (s : PPU) : Bool := getBitN (s.read_ioreg LCDC) 1

/-- `PPU::get_bkgd_wndw_tile_set_index`. -/
def PPU.get_bkgd_wndw_tile_set_index (s : PPU) : Nat :=
  if getBitN (s.read_ioreg LCDC) 4 then 1 else 0

/-- `PPU::get_bkgd_tile_map_index`. -/
def PPU.get_bkgd_tile_map_index (s : PPU) : Nat :=
  if getBitN (s.read_ioreg LCDC) 3 then 1 else 0

/-- `PPU::get_wndw_tile_map_index`. -/
def PPU.get_wndw_tile_map_index (s : PPU) : Nat :=
  if getBitN (s.read_ioreg LCDC) 6 then 1 else 0

/-- `PPU::spr_are_8x16`. -/
def PPU.spr_are_8x16 (s : PPU) : Bool := getBitN (s.read_ioreg LCDC) 2

/-- `PPU::get_scroll_coords`. -/
def PPU.get_scroll_coords (s : PPU) : Point :=
  ⟨s.read_ioreg SCX, s.read_ioreg SCY⟩

/-- `PPU::get_wndw_coords`: window x is `WX` minus 7, saturating at 0
(`Nat` subtraction is saturating). -/
def PPU.get_wndw_coords (s : PPU) : Point :=
  ⟨s.read_ioreg WX - 7, s.read_ioreg WY⟩

def CGB_PAL_SIZE : Nat := 8

/-- `PPU::get_dmg_bg_indices`. -/
def PPU.get_dmg_bg_indices (s : PPU) : Nat → Nat := unpack_u8 (s.read_ioreg BGP)

/-- `PPU::get_cgb_bg_indices`: the 8-byte slice of background palette RAM
for palette `num`. -/
def PPU.get_cgb_bg_indices (s : PPU) (num : Nat) : Nat → Nat :=
  fun i => s.cgb_bg_pal_data (num * CGB_PAL_SIZE + i)

/-- `PPU::get_dmg_spr_indices`. -/
def PPU.get_dmg_spr_indices (s : PPU) (pal : Nat) : Nat → Nat :=
  if pal = 0 then unpack_u8 (s.read_ioreg OBP0)
  else if pal = 1 then unpack_u8 (s.read_ioreg OBP1)
  else fun _ => 0

/-- `PPU::get_cgb_spr_indices`: the 8-byte slice of sprite palette RAM for
palette `pal`. -/
def PPU.get_cgb_spr_indices (s : PPU) (pal : Nat) : Nat → Nat :=
  fun i => s.cgb_spr_pal_data (pal * CGB_PAL_SIZE + i)

/-- Reinterpret a byte as a signed 8-bit value (`as i8` of the source). -/
def as_i8 (v : Nat) : Int :=
  if v % 256 < 128 then ((v % 256 : Nat) : Int) else ((v % 256 : Nat) : Int) - 256

/-- Tile index resolution shared by the background and window layers: in
tile-set 0 the index byte is signed and offset by 256. -/
def resolve_tile_index (set_index : Nat) (tile_byte : Nat) : Nat :=
  if set_index = 0 then (256 + as_i8 tile_byte).toNat else tile_byte

/-- Cast of an `Int` to `usize` (`as usize` of the source), wrapping. -/
def usizeOfInt (i : Int) : Nat := (i.emod (2 ^ 64)).toNat

/-- `PPU::render_background_line`: composite one scanline of the background
layer into the pixel row. -/
def PPU.render_background_line (s : PPU) (row : Row) (line : Nat) (mode : GB) : Row :=
  let dmg_pal := s.palette.get_bg_pal
  let pal_indices := s.get_dmg_bg_indices
  let screen_coords := s.get_scroll_coords
  let y := (screen_coords.y + line) % MAP_PIXELS
  let r0 := y % TILESIZE
  let start_x := screen_coords.x
  (List.range SCREEN_WIDTH).foldl (fun r x =>
    let map_x := ((start_x + x) % MAP_PIXELS) / TILESIZE
    let map_y := y / TILESIZE
    let idx := (map_y * MAP_SIZE + map_x) + s.get_bkgd_tile_map_index * TILE_MAP_TBL_SIZE
    let tile_data := s.tile_maps idx
    let tile_index := resolve_tile_index s.get_bkgd_wndw_tile_set_index tile_data.get_tile_num
    let tile := if mode = GB.CGB then s.tiles (tile_index + tile_data.get_vram_bank * TILE_NUM)
                else s.tiles tile_index
    let col := (start_x + x) % TILESIZE
    let col := if tile_data.is_x_flip then TILESIZE - col - 1 else col
    let rr := if tile_data.is_y_flip then TILESIZE - r0 - 1 else r0
    let pixel := tile.get_row rr col
    let color := if mode = GB.CGB then
        gbc2rgba (s.get_cgb_bg_indices tile_data.get_pal_num (2 * pixel))
                 (s.get_cgb_bg_indices tile_data.get_pal_num (2 * pixel + 1))
      else dmg_pal (pal_indices pixel)
    writeColor r x color) row

/-- The internal window line used by `render_wndw_line` for the map lookup:
the raw scanline when no continuation marker is stored, otherwise the
marker plus one. -/
def PPU.wndw_line_used (s : PPU) (line : Nat) : Nat :=
  match s.last_wndw_line with
  | none => line
  | some n => n + 1

/-- Body of `render_wndw_line` after the early-out check: composite the
window row at internal line `L` into the pixel row. -/
def PPU.draw_wndw_row (s : PPU) (row : Row) (L : Nat) (mode : GB) : Row :=
  let wndw_coords := s.get_wndw_coords
  let dmg_pal := s.palette.get_bg_pal
  let pal_indices := s.get_dmg_bg_indices
  let y := L - wndw_coords.y
  let r0 := y % TILESIZE
  let map_y := y / TILESIZE
  let start_x := wndw_coords.x
  (List.range' start_x (SCREEN_WIDTH - start_x)).foldl (fun r x =>
    let map_x := ((x - start_x) % MAP_PIXELS) / TILESIZE
    let idx := (map_y * MAP_SIZE + map_x) + s.get_wndw_tile_map_index * TILE_MAP_TBL_SIZE
    let wndw_data := s.tile_maps idx
    let tile_index := resolve_tile_index s.get_bkgd_wndw_tile_set_index wndw_data.get_tile_num
                        + s.vram_bank * TILE_NUM
    let tile := s.tiles tile_index
    let col := (x - start_x) % TILESIZE
    let pixel := tile.get_row r0 col
    let color := if mode = GB.CGB then
        gbc2rgba (s.cgb_bg_pal_data (2 * pixel)) (s.cgb_bg_pal_data (2 * pixel + 1))
      else dmg_pal (pal_indices pixel)
    writeColor r x color) row

/-- `PPU::render_wndw_line`: returns early (drawing nothing and leaving the
state alone) when the window does not reach this scanline or sits right of
the screen; otherwise draws the row at the internal window line and stores
that line as the continuation marker. -/
def PPU.render_wndw_line (s : PPU) (row : Row) (line : Nat) (mode : GB) : PPU × Row :=
  let wndw_coords := s.get_wndw_coords
  let L := s.wndw_line_used line
  if wndw_coords.y > L ∨ wndw_coords.x > SCREEN_WIDTH then
    (s, row)
  else
    ({ s with last_wndw_line := some L }, s.draw_wndw_row row L mode)

/-- Comparator of `PPU::sort_sprites`: `sort_by(|a, b| b.x.cmp(&a.x))`,
i.e. descending screen x-coordinate. -/
def spriteGe (a b : Sprite) : Prop := b.get_coords.1 ≤ a.get_coords.1

instance : DecidableRel spriteGe :=
  fun a b => inferInstanceAs (Decidable (b.get_coords.1 ≤ a.get_coords.1))

instance : IsTotal Sprite spriteGe :=
  ⟨fun a b => (Int.le_total a.get_coords.1 b.get_coords.1).symm⟩

instance : IsTrans Sprite spriteGe :=
  ⟨fun _ _ _ hab hbc => le_trans hbc hab⟩

/-- The 40-entry object table as a list in slot order (`self.oam.to_vec()`
of `sort_sprites`). -/
def PPU.oam_list (s : PPU) : List Sprite :=
  (List.range OAM_SPR_NUM).map s.oam

/-- `PPU::sort_sprites`: reverse the table (so that the lower table index
comes later among equal x) and stable-sort by descending x-coordinate
(`Vec::sort_by` is a stable sort; a stable sort for a given total preorder
is unique, so Mathlib's stable `insertionSort` is an exact model); sprites
drawn later overwrite earlier ones, so the list ends with the
highest-priority sprite. -/
def PPU.sort_sprites (s : PPU) : List Sprite :=
  (s.oam_list.reverse).insertionSort spriteGe

/-- Screen x-position hit by sprite column `col` (the `pixel_x` of the
source's column loop): the sprite's screen x plus the possibly flipped
column offset, in wrapping usize arithmetic. -/
def sprPixelX (spr : Sprite) (col : Nat) : Nat :=
  (usizeOfInt spr.get_coords.1 + (if spr.is_x_flip then TILESIZE - col - 1 else col)) % (2 ^ 64)

/-- The sprite-local row of the scanline (the `row` variable of the source
after the y-flip adjustment). -/
def sprRowN (s : PPU) (line : Nat) (spr : Sprite) : Nat :=
  let row_n := usizeOfInt ((line : Int) - spr.get_coords.2)
  if spr.is_y_flip then
    (if s.spr_are_8x16 then 2 * TILESIZE - row_n - 1 else TILESIZE - row_n - 1)
  else row_n

/-- The tile-store index of the sprite's tile (the `spr_bank` of the
source), with the low tile-number bit forced in 8x16 mode. -/
def sprTileIdx (s : PPU) (line : Nat) (spr : Sprite) : Nat :=
  let row_n := sprRowN s line spr
  let spr_num := if s.spr_are_8x16 then
      (if row_n < TILESIZE then spr.get_tile_num &&& 0xFE else spr.get_tile_num ||| 0x01)
    else spr.get_tile_num
  spr_num + spr.get_vram_bank * TILE_NUM

/-- The 2-bit color index of sprite column `col` on this scanline. -/
def sprPixelVal (s : PPU) (line : Nat) (spr : Sprite) (col : Nat) : Nat :=
  (s.tiles (sprTileIdx s line spr)).get_row (sprRowN s line spr % TILESIZE) col

/-- The monochrome color a sprite pixel with color index `pv` resolves to
(`dmg_pal[pal_indices[pixel]]` of the source). -/
def sprColor (s : PPU) (spr : Sprite) (pv : Nat) : RGBA :=
  s.palette.get_spr_pal spr.get_pal (s.get_dmg_spr_indices spr.get_pal pv)

/-- One column step of the sprite-drawing loop of `render_sprite_line`.
The accumulator carries the pixel row and the `above_bg` flag, which is a
mutable loop variable in the source, carried across columns. -/
def sprStep (s : PPU) (mode : GB) (line : Nat) (spr : Sprite) (acc : Row × Bool) (col : Nat) :
    Row × Bool :=
  let r := acc.1
  let above0 := acc.2
  let pixel := sprPixelVal s line spr col
  let pixel_x := sprPixelX spr col
  if pixel_x ≥ SCREEN_WIDTH then acc
  else
    let bt_ab : Bool × Bool :=
      if mode = GB.CGB then
        let screen_coords := s.get_scroll_coords
        let map_x := (screen_coords.x + pixel_x) % MAP_SIZE
        let map_y := (screen_coords.y + line) % MAP_SIZE
        let idx := (map_y * MAP_SIZE + map_x) + s.get_bkgd_tile_map_index * TILE_MAP_TBL_SIZE
        let tile_data := s.tile_maps idx
        let pal_ind := s.get_cgb_bg_indices tile_data.get_pal_num
        let bkgd_pal := gbc2rgba (pal_ind 0) (pal_ind 1)
        let ab := above0 && !tile_data.is_bg_priority
        let ab := ab || !(getBitN (s.read_ioreg LCDC) 0)
        (rowEqColor r pixel_x bkgd_pal, ab)
      else
        (rowEqColor r pixel_x (s.palette.get_spr_pal spr.get_pal 0), above0)
    let bkgd_transparent := bt_ab.1
    let above_bg := bt_ab.2
    if pixel != 0 && (above_bg || bkgd_transparent) then
      let color := if mode = GB.CGB then
          gbc2rgba (s.get_cgb_spr_indices spr.get_pal (2 * pixel))
                   (s.get_cgb_spr_indices spr.get_pal (2 * pixel + 1))
        else sprColor s spr pixel
      (writeColor r pixel_x color, above_bg)
    else
      (r, above_bg)

/-- Body of the per-sprite loop of `render_sprite_line`: draw one sprite's
eight columns into the pixel row. -/
def PPU.draw_sprite (s : PPU) (mode : GB) (line : Nat) (row : Row) (spr : Sprite) : Row :=
  ((List.range TILESIZE).foldl (sprStep s mode line spr) (row, spr.is_above_bkgd)).1

/-- The per-sprite loop of `render_sprite_line`: skip sprites that miss the
scanline or are off-screen; count each qualifying sprite and, on the
monochrome variant, stop before drawing once more than `SPR_PER_LINE`
qualifying sprites have been counted. -/
def PPU.draw_sprite_loop (s : PPU) (mode : GB) (line : Nat) :
    Row → List Sprite → Nat → Row
  | row, [], _ => row
  | row, spr :: rest, sprites_drawn =>
    if !(spr.contains_scanline line s.spr_are_8x16) || !spr.is_onscreen then
      s.draw_sprite_loop mode line row rest sprites_drawn
    else if sprites_drawn + 1 > SPR_PER_LINE && mode != GB.CGB then
      row
    else
      s.draw_sprite_loop mode line (s.draw_sprite mode line row spr) rest (sprites_drawn + 1)

/-- `PPU::render_sprite_line`. -/
def PPU.render_sprite_line (s : PPU) (row : Row) (line : Nat) (mode : GB) : Row :=
  s.draw_sprite_loop mode line row s.sort_sprites 0

/-- `PPU::render_scanline`: composite the background, window and sprite
layers (each if enabled) over an opaque-white row and copy it into the
screen buffer at the current LY. -/
def PPU.render_scanline (s : PPU) (mode : GB) : PPU :=
  let line := s.read_ioreg LY
  let row0 : Row := fun _ => 0xFF
  let row1 := if s.is_bkgd_dspl mode then s.render_background_line row0 line mode else row0
  let sr := if s.is_wndw_dspl then s.render_wndw_line row1 line mode else (s, row1)
  let s' := sr.1
  let row2 := sr.2
  let row3 := if s'.is_sprt_dspl then s'.render_sprite_line row2 line mode else row2
  let start_index := line * (SCREEN_WIDTH * COLOR_CHANNELS)
  { s' with screen_buffer := fun i =>
      if start_index ≤ i ∧ i < start_index + SCREEN_WIDTH * COLOR_CHANNELS then
        row3 (i - start_index)
      else s'.screen_buffer i }

/-- `PPU::render_screen`: a snapshot of the screen buffer, blank white when
the display-enable bit is cleared. -/
def PPU.render_screen (s : PPU) : Nat → Nat :=
  if s.is_lcd_dspl then s.screen_buffer else fun _ => 0xFF

/-- `PPU::set_sys_pal`. -/
def PPU.set_sys_pal (s : PPU) (pal : Palettes) : PPU :=
  { s with palette := s.palette.set_sys_pal pal }

/-! Basic lemmas about the I/O register block. -/

@[simp] theorem PPU.read_ioreg_write_ioreg (s : PPU) (a b v : Nat) :
    (s.write_ioreg a v).read_ioreg b
      = if b - IO_START = a - IO_START then v else s.read_ioreg b := by
  simp [PPU.read_ioreg, PPU.write_ioreg, updf]

@[simp] theorem PPU.write_ioreg_lcd_mode (s : PPU) (a v : Nat) :
    (s.write_ioreg a v).lcd_mode = s.lcd_mode := rfl

@[simp] theorem PPU.write_ioreg_last_wndw_line (s : PPU) (a v : Nat) :
    (s.write_ioreg a v).last_wndw_line = s.last_wndw_line := rfl

@[simp] theorem PPU.write_ioreg_vram_bank (s : PPU) (a v : Nat) :
    (s.write_ioreg a v).vram_bank = s.vram_bank := rfl

/-- Bits 0-2 of a byte survive an OR with a value whose low three bits have
been masked away. -/
theorem lor_land248_mod8 (v w : Nat) : ((v &&& 248) ||| w) % 8 = w % 8 := by
  apply Nat.eq_of_testBit_eq
  intro i
  have h8 : (8 : Nat) = 2 ^ 3 := rfl
  rw [h8]
  simp only [Nat.testBit_mod_two_pow, Nat.testBit_or, Nat.testBit_and]
  rcases Nat.lt_or_ge i 3 with hi | hi
  · interval_cases i <;> simp [show Nat.testBit 248 0 = false from rfl,
      show Nat.testBit 248 1 = false from rfl, show Nat.testBit 248 2 = false from rfl]
  · simp [Nat.not_lt.mpr hi]

/-- The low 2 bits of `(a &&& 252) ||| b` are exactly `b` when `b < 4`. -/
theorem lor_land252_mod4 (a b : Nat) (h : b < 4) : ((a &&& 252) ||| b) % 4 = b := by
  have hmod : ((a &&& 252) ||| b) % 4 = b % 4 := by
    apply Nat.eq_of_testBit_eq
    intro i
    have h4 : (4 : Nat) = 2 ^ 2 := rfl
    rw [h4]
    simp only [Nat.testBit_mod_two_pow, Nat.testBit_or, Nat.testBit_and]
    rcases Nat.lt_or_ge i 2 with hi | hi
    · interval_cases i <;> simp [show Nat.testBit 252 0 = false from rfl,
        show Nat.testBit 252 1 = false from rfl]
    · simp [Nat.not_lt.mpr hi]
  rw [hmod, Nat.mod_eq_of_lt h]

/-- After a `set_ly` call that observed a scanline change, the stored LY
equals the state machine's scanline and the state machine is untouched. -/
theorem set_ly_changed (s : PPU) (heq : ¬ s.read_ioreg LY = s.lcd_mode.get_scanline) :
    ((s.set_ly).1).read_ioreg LY = s.lcd_mode.get_scanline
    ∧ ((s.set_ly).1).lcd_mode = s.lcd_mode := by
  simp only [PPU.set_ly]
  rw [if_pos heq]
  split_ifs with h2 h3 h4 <;>
    simp [PPU.read_ioreg, PPU.write_ioreg, updf, LY, STAT, IO_START]

/-- `set_ly` never touches the LCD mode state machine. -/
@[simp] theorem PPU.set_ly_lcd_mode (s : PPU) : (s.set_ly).1.lcd_mode = s.lcd_mode := by
  by_cases heq : s.read_ioreg LY = s.lcd_mode.get_scanline
  · rw [PPU.set_ly]
    simp [heq]
  · exact (set_ly_changed s heq).2

/-! Claim theorems. -/

/-- C1: a coincidence interrupt is returned by the scanline/coincidence
update only on calls where the scanline read from the mode state machine
differs from the previously stored LY value; when the scanline is
unchanged, the state (including the coincidence flag) is untouched and no
coincidence interrupt is produced; and immediately after any such update a
second one (the scanline being unchanged) never produces a coincidence
interrupt, so a given LY==LYC match pulses exactly once at the
transition. -/
theorem C1_coincidence_interrupt_once (s : PPU) :
    ((s.set_ly).2 = true → s.read_ioreg LY ≠ s.lcd_mode.get_scanline)
    ∧ (s.read_ioreg LY = s.lcd_mode.get_scanline → s.set_ly = (s, false))
    ∧ (((s.set_ly).1.set_ly).2 = false) := by
  refine ⟨?_, ?_, ?_⟩
  · intro h heq
    rw [PPU.set_ly] at h
    simp [heq] at h
  · intro heq
    rw [PPU.set_ly]
    simp [heq]
  · by_cases heq : s.read_ioreg LY = s.lcd_mode.get_scanline
    · have h1 : s.set_ly = (s, false) := by rw [PPU.set_ly]; simp [heq]
      rw [h1]
      simp
      rw [PPU.set_ly]
      simp [heq]
    · have hly := (set_ly_changed s heq).1
      have hlcd := (set_ly_changed s heq).2
      rw [PPU.set_ly, hlcd, hly]
      simp

/-- C1 witness: on the initial state the scanline is unchanged, so the
update returns no coincidence interrupt and leaves the state alone. -/
theorem C1_coincidence_interrupt_once_witness :
    PPU.new.set_ly = (PPU.new, false) :=
  (C1_coincidence_interrupt_once PPU.new).2.1 rfl

/-- C2 counterexample: writing 8 then 0 to STAT leaves the writable bit 3
set, although bit 3 of the written value 0 is 0 — a writable bit that is 0
in the written value is not 0 in the stored register after the write. -/
theorem C2_stat_write_counterexample :
    ((PPU.new.write_vram STAT 8 GB.DMG).bind
        (fun s => s.write_vram STAT 0 GB.DMG)).map
      (fun s => s.read_ioreg STAT &&& 248) = some 8
    ∧ ((0 : Nat) &&& 248) ≠ 8 := by
  exact ⟨rfl, by decide⟩

/-- C2 amended: a STAT write never fails and stores the OR of the old
register with the writable bits of the value (so writable bits can be set
but never cleared by a write), and the low three bits (mode bits and the
read-only coincidence bit) are unchanged. -/
theorem C2_stat_write_or_semantics (s : PPU) (v : Nat) (mode : GB) :
    (s.write_vram STAT v mode).map (fun s' => s'.read_ioreg STAT)
      = some ((v &&& 248) ||| s.read_ioreg STAT)
    ∧ ((v &&& 248) ||| s.read_ioreg STAT) % 8 = s.read_ioreg STAT % 8 :=
  ⟨rfl, lor_land248_mod8 v (s.read_ioreg STAT)⟩

/-- C3: after every `update` call, the low 2 bits of the STAT register
equal the numeric id of the LCD mode returned by that call. -/
theorem C3_stat_mirrors_mode (s : PPU) (cycles : Nat) :
    ((s.update cycles).1.read_ioreg STAT) % 4
      = ((s.update cycles).2.lcd_result.mode).get_idx := by
  rw [PPU.update]
  simp only [PPU.read_ioreg_write_ioreg, eq_self_iff_true, if_true, PPU.set_ly_lcd_mode]
  have hmode : ((s.lcd_mode.lcd_step cycles).2).mode
      = ((s.lcd_mode.lcd_step cycles).1).get_mode := by
    rw [Lcd.lcd_step]
  rw [hmode]
  apply lor_land252_mod4
  cases ((s.lcd_mode.lcd_step cycles).1).get_mode <;> simp [LcdModeType.get_idx]

/-- C8: the code is wrong here.  `read_cgb_spr_color` masks OBPI with 0x7F
(seven bits) instead of 0x3F, so with OBPI = 0x40 a CGB-mode read of the
OBPD data register indexes the 64-byte sprite palette RAM at 64 — out of
range, a panic (embedded as `none`) — while the claim (and the sibling
background path) prescribe the low 6 bits, always in range. -/
theorem C8_obpd_read_out_of_range :
    (PPU.new.write_vram OBPI 0x40 GB.CGB).bind (fun s => s.read_vram OBPD none GB.CGB) = none
    ∧ ((0x40 : Nat) &&& 0x7F) = 64
    ∧ ¬ (((0x40 : Nat) &&& 0x7F) < 64)
    ∧ ((0x40 : Nat) &&& 0x3F) < 64 := by
  exact ⟨rfl, by decide, by decide, by decide⟩

/-- C9: a tile-map write with a non-zero selected VRAM bank on the
monochrome variant trips the assertion (embedded as `none`); with bank 0
the write updates the cell's tile-index byte, and on the color variant
with a non-zero bank it updates the cell's metadata byte — in both cases
the assertion does not fire. -/
theorem C9_tile_map_write_assertion (s : PPU) (addr val : Nat) (mode : GB)
    (h1 : TILE_MAP ≤ addr) (h2 : addr ≤ TILE_MAP_END) :
    (s.vram_bank ≠ 0 ∧ mode = GB.DMG → s.write_vram addr val mode = none)
    ∧ (s.vram_bank = 0 →
        (s.write_vram addr val mode).map
          (fun s' => (s'.tile_maps (addr - TILE_MAP)).get_tile_num) = some val)
    ∧ (mode = GB.CGB → s.vram_bank ≠ 0 →
        (s.write_vram addr val mode).map
          (fun s' => (s'.tile_maps (addr - TILE_MAP)).get_metadata) = some val) := by
  have h1' : 0x9800 ≤ addr := h1
  have h2' : addr ≤ 0x9FFF := h2
  have hno1 : ¬ (OAM_START ≤ addr ∧ addr ≤ OAM_END) := by
    rintro ⟨ha, -⟩
    have ha' : (0xFE00 : Nat) ≤ addr := ha
    omega
  have hno2 : ¬ (TILE_SET ≤ addr ∧ addr ≤ TILE_SET_END) := by
    rintro ⟨-, hb⟩
    have hb' : addr ≤ (0x97FF : Nat) := hb
    omega
  rw [PPU.write_vram, if_neg hno1, if_neg hno2, if_pos ⟨h1, h2⟩]
  refine ⟨?_, ?_, ?_⟩
  · rintro ⟨hb, hm⟩
    rw [if_neg hb, if_pos hm]
  · intro hb
    rw [if_pos hb, Option.map_some']
    dsimp only
    rw [updf_same]
    rfl
  · intro hm hb
    have hdmg : mode ≠ GB.DMG := by rw [hm]; intro hx; cases hx
    rw [if_neg hb, if_neg hdmg, Option.map_some']
    dsimp only
    rw [updf_same]
    rfl

/-- C9 witness: on the fresh state (bank 0) a DMG tile-map write succeeds
and stores the tile-index byte. -/
theorem C9_tile_map_write_assertion_witness :
    (PPU.new.write_vram 0x9800 5 GB.DMG).map
      (fun s' => (s'.tile_maps (0x9800 - TILE_MAP)).get_tile_num) = some 5 :=
  (C9_tile_map_write_assertion PPU.new 0x9800 5 GB.DMG (by decide) (by decide)).2.1 rfl

/-! Preservation of the VRAM bank selector by every public operation. -/

theorem PPU.write_cgb_bg_color_vram_bank (s : PPU) (v : Nat) (s' : PPU)
    (h : s.write_cgb_bg_color v = some s') : s'.vram_bank = s.vram_bank := by
  rw [PPU.write_cgb_bg_color] at h
  dsimp only at h
  split_ifs at h
  all_goals
    first
    | exact Option.noConfusion h
    | (injection h with h; rw [← h, PPU.write_ioreg_vram_bank])
    | (injection h with h; rw [← h])

theorem PPU.write_cgb_spr_color_vram_bank (s : PPU) (v : Nat) (s' : PPU)
    (h : s.write_cgb_spr_color v = some s') : s'.vram_bank = s.vram_bank := by
  rw [PPU.write_cgb_spr_color] at h
  dsimp only at h
  split_ifs at h
  all_goals
    first
    | exact Option.noConfusion h
    | (injection h with h; rw [← h, PPU.write_ioreg_vram_bank])
    | (injection h with h; rw [← h])

theorem PPU.write_vram_vram_bank_le (s : PPU) (a v : Nat) (m : GB) (s' : PPU)
    (hs : s.vram_bank ≤ 1) (h : s.write_vram a v m = some s') : s'.vram_bank ≤ 1 := by
  rw [PPU.write_vram] at h
  dsimp only at h
  split_ifs at h
  all_goals
    first
    | exact Option.noConfusion h
    | (rw [PPU.write_cgb_bg_color_vram_bank _ _ _ h]; exact hs)
    | (rw [PPU.write_cgb_spr_color_vram_bank _ _ _ h]; exact hs)
    | (injection h with h; rw [← h]; exact hs)
    | (injection h with h; rw [← h];
       by_cases hb : v.testBit 0 <;> simp [PPU.set_vram_bank, hb])

@[simp] theorem PPU.set_ly_vram_bank (s : PPU) : (s.set_ly).1.vram_bank = s.vram_bank := by
  simp only [PPU.set_ly]
  split_ifs <;> rfl

@[simp] theorem PPU.update_vram_bank (s : PPU) (c : Nat) :
    (s.update c).1.vram_bank = s.vram_bank := by
  rw [PPU.update]
  simp

@[simp] theorem PPU.render_wndw_line_vram_bank (s : PPU) (row : Row) (line : Nat) (mode : GB) :
    (s.render_wndw_line row line mode).1.vram_bank = s.vram_bank := by
  rw [PPU.render_wndw_line]
  split_ifs <;> rfl

@[simp] theorem PPU.render_scanline_vram_bank (s : PPU) (mode : GB) :
    (s.render_scanline mode).vram_bank = s.vram_bank := by
  rw [PPU.render_scanline]
  by_cases h : s.is_wndw_dspl <;> simp [h]

/-- States reachable from `PPU::new` by the public mutating operations. -/
inductive Reachable : PPU → Prop where
  | new : Reachable PPU.new
  | write (s : PPU) (a v : Nat) (m : GB) (s' : PPU) :
      Reachable s → s.write_vram a v m = some s' → Reachable s'
  | upd (s : PPU) (c : Nat) : Reachable s → Reachable (s.update c).1
  | render (s : PPU) (m : GB) : Reachable s → Reachable (s.render_scanline m)
  | pal (s : PPU) (p : Palettes) : Reachable s → Reachable (s.set_sys_pal p)

/-- C10: in every reachable PPU state the internal VRAM bank selector is 0
or 1 (every write to the bank-select register keeps only bit 0), so the
tile-store index computed for any tile-pattern address from the internally
stored bank stays below the 2×384-tile storage bound. -/
theorem C10_vram_bank_in_range (s : PPU) (h : Reachable s) (addr : Nat)
    (h1 : TILE_SET ≤ addr) (h2 : addr ≤ TILE_SET_END) :
    s.vram_bank ≤ 1
    ∧ (addr - TILE_SET) / TILE_BYTES + s.vram_bank * TILE_NUM
        < VRAM_BANK_NUM * TILE_NUM := by
  have hb : s.vram_bank ≤ 1 := by
    induction h with
    | new => decide
    | write s a v m s' hr hw ih => exact PPU.write_vram_vram_bank_le _ _ _ _ _ ih hw
    | upd s c hr ih => simpa using ih
    | render s m hr ih => simpa using ih
    | pal s p hr ih => simpa [PPU.set_sys_pal] using ih
  refine ⟨hb, ?_⟩
  have h1' : 0x8000 ≤ addr := h1
  have h2' : addr ≤ 0x97FF := h2
  show (addr - 0x8000) / 16 + s.vram_bank * 384 < 768
  omega

/-- C10 witness: the invariant holds at the initial state, instantiated at
the first tile-pattern address. -/
theorem C10_vram_bank_in_range_witness :
    PPU.new.vram_bank ≤ 1
    ∧ ((0x8000 : Nat) - TILE_SET) / TILE_BYTES + PPU.new.vram_bank * TILE_NUM
        < VRAM_BANK_NUM * TILE_NUM :=
  C10_vram_bank_in_range PPU.new Reachable.new 0x8000 (by decide) (by decide)

/-- The window continuation marker after `set_ly`: cleared exactly when a
scanline change to 0 is observed, untouched otherwise. -/
theorem set_ly_last_wndw (s : PPU) :
    (s.set_ly).1.last_wndw_line
      = if s.read_ioreg LY ≠ s.lcd_mode.get_scanline ∧ s.lcd_mode.get_scanline = 0
        then none else s.last_wndw_line := by
  simp only [PPU.set_ly]
  split_ifs with h1 h2 h3 h4 h5 h6 <;> first | rfl | tauto

/-- C7: (1) the window continuation marker is empty after the
scanline/coincidence update exactly when it was already empty or the
update observed the scanline becoming 0; (2) when the marker holds `n`,
the internal window line used for the next window draw is `n + 1`, not the
raw scanline; (3) when the window is not skipped, the layer draws at that
internal line and stores it as the new marker; (4) when the window is
skipped, state and row are untouched. -/
theorem C7_window_continuation (s : PPU) (row : Row) (line : Nat) (mode : GB) (n : Nat) :
    ((s.set_ly).1.last_wndw_line = none ↔
        s.last_wndw_line = none
        ∨ (s.lcd_mode.get_scanline = 0 ∧ s.read_ioreg LY ≠ 0))
    ∧ (s.last_wndw_line = some n → s.wndw_line_used line = n + 1)
    ∧ (¬ (s.get_wndw_coords.y > s.wndw_line_used line
          ∨ s.get_wndw_coords.x > SCREEN_WIDTH) →
        s.render_wndw_line row line mode
          = ({ s with last_wndw_line := some (s.wndw_line_used line) },
             s.draw_wndw_row row (s.wndw_line_used line) mode))
    ∧ (s.get_wndw_coords.y > s.wndw_line_used line
          ∨ s.get_wndw_coords.x > SCREEN_WIDTH →
        s.render_wndw_line row line mode = (s, row)) := by
  refine ⟨?_, ?_, ?_, ?_⟩
  · rw [set_ly_last_wndw]
    split_ifs with hc
    · exact ⟨fun _ => Or.inr ⟨hc.2, fun h0 => hc.1 (h0.trans hc.2.symm)⟩, fun _ => rfl⟩
    · refine ⟨Or.inl, ?_⟩
      rintro (hnone | ⟨h0, hne⟩)
      · exact hnone
      · exact absurd ⟨fun he => hne (he.trans h0), h0⟩ hc
  · intro hn
    simp [PPU.wndw_line_used, hn]
  · intro hskip
    rw [PPU.render_wndw_line, if_neg hskip]
  · intro hskip
    rw [PPU.render_wndw_line, if_pos hskip]

/-- Reading back the OAM byte just written returns the written value. -/
theorem Sprite.get_byte_of_set_byte (sp : Sprite) (n v : Nat) (mode : GB) :
    (sp.set_byte n v mode).get_byte n = v := by
  rcases n with _ | _ | _ | n <;> rfl

/-- Reading back the tile byte just written returns the written value. -/
theorem Tile.byte_of_set_byte (t : Tile) (n v : Nat) :
    (t.set_byte n v).get_byte n = v :=
  updf_same _ _ _

/-- C4 counterexample: STAT sits inside the I/O register region and is
neither color-palette data register, yet writing 7 and reading back yields
0 — the claim's "sole exception" clause is too narrow. -/
theorem C4_round_trip_counterexample :
    (IO_START ≤ STAT ∧ STAT ≤ IO_END)
    ∧ STAT ≠ BGPD ∧ STAT ≠ OBPD
    ∧ (PPU.new.write_vram STAT 7 GB.DMG).bind
        (fun s => s.read_vram STAT none GB.DMG) = some 0
    ∧ (7 : Nat) ≠ 0 :=
  ⟨by decide, by decide, by decide, rfl, by decide⟩

/-- C4 amended: write-then-read round-trips for every address of the
object table, tile pattern, tile map and I/O regions, once the exception
list also contains the status register (whose write ORs instead of
storing) and, on the color variant, the bank-select register (which reads
back as `0xFE | bank`) besides the color palette data registers.  The
tile-map case needs the C9/C10 preconditions (bank 0 or color variant;
bank in range). -/
theorem C4_round_trip (s : PPU) (addr v : Nat) (mode : GB)
    (hbank : s.vram_bank ≤ 1)
    (hmap : s.vram_bank = 0 ∨ mode = GB.CGB)
    (hregion : (OAM_START ≤ addr ∧ addr ≤ OAM_END)
      ∨ (TILE_SET ≤ addr ∧ addr ≤ TILE_SET_END)
      ∨ (TILE_MAP ≤ addr ∧ addr ≤ TILE_MAP_END)
      ∨ (IO_START ≤ addr ∧ addr ≤ IO_END))
    (hstat : addr ≠ STAT)
    (hcgb : mode = GB.CGB → addr ≠ BGPD ∧ addr ≠ OBPD ∧ addr ≠ VBK) :
    (s.write_vram addr v mode).bind (fun s' => s'.read_vram addr none mode) = some v := by
  rcases hregion with h | h | h | h
  · -- object table
    rw [PPU.write_vram, if_pos h]
    dsimp only
    rw [Option.some_bind, PPU.read_vram, if_pos h]
    dsimp only
    rw [updf_same, Sprite.get_byte_of_set_byte]
  · -- tile pattern data
    have h1 : (0x8000 : Nat) ≤ addr := h.1
    have h2 : addr ≤ (0x97FF : Nat) := h.2
    have hno1 : ¬ (OAM_START ≤ addr ∧ addr ≤ OAM_END) := by
      rintro ⟨ha, hb⟩
      have ha' : (0xFE00 : Nat) ≤ addr := ha
      omega
    have hin : (addr - TILE_SET) / TILE_BYTES + s.vram_bank * TILE_NUM
        < VRAM_BANK_NUM * TILE_NUM := by
      show (addr - 0x8000) / 16 + s.vram_bank * 384 < 768
      omega
    rw [PPU.write_vram, if_neg hno1, if_pos h]
    dsimp only
    rw [if_pos hin, Option.some_bind, PPU.read_vram]
    rw [if_neg hno1, if_pos h]
    dsimp only
    rw [if_pos hin, updf_same, Tile.byte_of_set_byte]
  · -- tile maps
    have h1 : (0x9800 : Nat) ≤ addr := h.1
    have h2 : addr ≤ (0x9FFF : Nat) := h.2
    have hno1 : ¬ (OAM_START ≤ addr ∧ addr ≤ OAM_END) := by
      rintro ⟨ha, hb⟩
      have ha' : (0xFE00 : Nat) ≤ addr := ha
      omega
    have hno2 : ¬ (TILE_SET ≤ addr ∧ addr ≤ TILE_SET_END) := by
      rintro ⟨ha, hb⟩
      have hb' : addr ≤ (0x97FF : Nat) := hb
      omega
    rw [PPU.write_vram, if_neg hno1, if_neg hno2, if_pos h]
    by_cases hb0 : s.vram_bank = 0
    · rw [if_pos hb0, Option.some_bind, PPU.read_vram, if_neg hno1, if_neg hno2, if_pos h]
      dsimp only
      rw [if_pos hb0, updf_same]
      rfl
    · have hm : mode = GB.CGB := by tauto
      have hdmg : mode ≠ GB.DMG := by rw [hm]; intro hx; cases hx
      rw [if_neg hb0, if_neg hdmg, Option.some_bind, PPU.read_vram, if_neg hno1,
        if_neg hno2, if_pos h]
      dsimp only
      rw [if_neg hb0, if_neg hdmg, updf_same]
      rfl
  · -- I/O registers
    have h1 : (0xFF00 : Nat) ≤ addr := h.1
    have h2 : addr ≤ (0xFF7F : Nat) := h.2
    have hno1 : ¬ (OAM_START ≤ addr ∧ addr ≤ OAM_END) := by
      rintro ⟨ha, hb⟩
      have hb' : addr ≤ (0xFE9F : Nat) := hb
      omega
    have hno2 : ¬ (TILE_SET ≤ addr ∧ addr ≤ TILE_SET_END) := by
      rintro ⟨ha, hb⟩
      have hb' : addr ≤ (0x97FF : Nat) := hb
      omega
    have hno3 : ¬ (TILE_MAP ≤ addr ∧ addr ≤ TILE_MAP_END) := by
      rintro ⟨ha, hb⟩
      have hb' : addr ≤ (0x9FFF : Nat) := hb
      omega
    rw [PPU.write_vram, if_neg hno1, if_neg hno2, if_neg hno3, if_pos h, if_neg hstat]
    cases mode with
    | DMG =>
      have hnc : (GB.DMG : GB) ≠ GB.CGB := by intro hx; cases hx
      by_cases hab : addr = BGPD
      · rw [if_pos hab, if_neg hnc, Option.some_bind, PPU.read_vram, if_neg hno1,
          if_neg hno2, if_neg hno3, if_pos h, if_neg hnc]
        simp [PPU.read_ioreg_write_ioreg]
      · rw [if_neg hab]
        by_cases hao : addr = OBPD
        · rw [if_pos hao, if_neg hnc, Option.some_bind, PPU.read_vram, if_neg hno1,
            if_neg hno2, if_neg hno3, if_pos h, if_neg hnc]
          simp [PPU.read_ioreg_write_ioreg]
        · rw [if_neg hao]
          by_cases hav : addr = VBK
          · rw [if_pos hav, if_neg hnc, Option.some_bind, PPU.read_vram, if_neg hno1,
              if_neg hno2, if_neg hno3, if_pos h, if_neg hnc]
            simp [PPU.read_ioreg_write_ioreg]
          · rw [if_neg hav, Option.some_bind, PPU.read_vram, if_neg hno1,
              if_neg hno2, if_neg hno3, if_pos h, if_neg hnc]
            simp [PPU.read_ioreg_write_ioreg]
    | CGB =>
      obtain ⟨hab, hao, hav⟩ := hcgb rfl
      rw [if_neg hab, if_neg hao, if_neg hav, Option.some_bind, PPU.read_vram,
        if_neg hno1, if_neg hno2, if_neg hno3, if_pos h, if_pos rfl,
        if_neg hab, if_neg hao, if_neg hav]
      simp [PPU.read_ioreg_write_ioreg]

/-- C4 witness: a scroll-register write on the fresh state round-trips. -/
theorem C4_round_trip_witness :
    (PPU.new.write_vram 0xFF42 0xAB GB.DMG).bind
      (fun s' => s'.read_vram 0xFF42 none GB.DMG) = some 0xAB :=
  C4_round_trip PPU.new 0xFF42 0xAB GB.DMG (by decide) (Or.inl rfl)
    (Or.inr (Or.inr (Or.inr (by decide)))) (by decide) (fun hx => by cases hx)

/-- A state for the C7 witness: the continuation marker holds line 5 and
the window position registers are zero, so the window is not skipped. -/
def ppuW7 : PPU := { PPU.new with last_wndw_line := some 5 }

/-- Blank row used by the C7 witness. -/
def rowW7 : Row := fun _ => 0xFF

/-- C7 witness: with marker 5, the next window draw uses internal line 6
and stores 6 as the new marker. -/
theorem C7_window_continuation_witness :
    ppuW7.wndw_line_used 3 = 5 + 1
    ∧ ppuW7.render_wndw_line rowW7 3 GB.DMG
        = ({ ppuW7 with last_wndw_line := some (ppuW7.wndw_line_used 3) },
           ppuW7.draw_wndw_row rowW7 (ppuW7.wndw_line_used 3) GB.DMG) :=
  ⟨(C7_window_continuation ppuW7 rowW7 3 GB.DMG 5).2.1 rfl,
   (C7_window_continuation ppuW7 rowW7 3 GB.DMG 5).2.2.1 (by decide)⟩

/-! Sprite-cap and sprite-priority machinery. -/

/-- The qualification test of the per-sprite loop: the sprite's vertical
extent contains the scanline and it is on-screen. -/
def sprQual (s : PPU) (line : Nat) (spr : Sprite) : Bool :=
  spr.contains_scanline line s.spr_are_8x16 && spr.is_onscreen

/-- Drawing with no per-line cap: every qualifying sprite of the list is
drawn, in list order. -/
def PPU.draw_all (s : PPU) (mode : GB) (line : Nat) (row : Row) (sprites : List Sprite) : Row :=
  sprites.foldl (fun r spr => if sprQual s line spr then s.draw_sprite mode line r spr else r) row

/-- The prefix of a sprite list that keeps at most `n` qualifying sprites
(and every non-qualifying sprite before the cut). -/
def takeQual (q : Sprite → Bool) : Nat → List Sprite → List Sprite
  | _, [] => []
  | n, spr :: rest =>
    if q spr then
      match n with
      | 0 => []
      | Nat.succ m => spr :: takeQual q m rest
    else spr :: takeQual q n rest

/-- The skip test of the sprite loop is the negation of qualification. -/
theorem skip_eq_not_sprQual (s : PPU) (line : Nat) (spr : Sprite) :
    (!(spr.contains_scanline line s.spr_are_8x16) || !spr.is_onscreen)
      = !(sprQual s line spr) := by
  simp [sprQual]

/-- On the monochrome variant the sprite loop draws exactly the qualifying
sprites of the `takeQual`-prefix, in iteration order. -/
theorem draw_sprite_loop_dmg_eq (s : PPU) (line : Nat) (sprites : List Sprite) :
    ∀ (row : Row) (cnt : Nat), cnt ≤ SPR_PER_LINE →
      s.draw_sprite_loop GB.DMG line row sprites cnt
        = s.draw_all GB.DMG line row (takeQual (sprQual s line) (SPR_PER_LINE - cnt) sprites) := by
  induction sprites with
  | nil => intro row cnt h; rfl
  | cons spr rest ih =>
    intro row cnt h
    rw [PPU.draw_sprite_loop, skip_eq_not_sprQual]
    by_cases hq : sprQual s line spr = true
    · rw [hq]
      simp only [Bool.not_true, Bool.false_eq_true, if_false]
      by_cases hcnt : cnt = SPR_PER_LINE
      · subst hcnt
        rw [if_pos (by decide)]
        have h0 : SPR_PER_LINE - SPR_PER_LINE = 0 := by omega
        rw [h0]
        simp [takeQual, hq, PPU.draw_all]
      · have hlt : cnt < SPR_PER_LINE := Nat.lt_of_le_of_ne h hcnt
        rw [if_neg (by simp; omega)]
        rw [ih (s.draw_sprite GB.DMG line row spr) (cnt + 1) hlt]
        have hsub : SPR_PER_LINE - cnt = Nat.succ (SPR_PER_LINE - (cnt + 1)) := by omega
        rw [hsub]
        simp [takeQual, hq, PPU.draw_all]
    · have hqf : sprQual s line spr = false := by simpa using hq
      rw [hqf]
      simp only [Bool.not_false, if_true]
      rw [ih row cnt h]
      simp [takeQual, hqf, PPU.draw_all]

/-- On the color variant the sprite loop draws every qualifying sprite:
the cap never applies. -/
theorem draw_sprite_loop_cgb_eq (s : PPU) (line : Nat) (sprites : List Sprite) :
    ∀ (row : Row) (cnt : Nat),
      s.draw_sprite_loop GB.CGB line row sprites cnt
        = s.draw_all GB.CGB line row sprites := by
  induction sprites with
  | nil => intro row cnt; rfl
  | cons spr rest ih =>
    intro row cnt
    rw [PPU.draw_sprite_loop, skip_eq_not_sprQual]
    by_cases hq : sprQual s line spr = true
    · rw [hq]
      simp only [Bool.not_true, Bool.false_eq_true, if_false]
      rw [if_neg (by simp)]
      rw [ih (s.draw_sprite GB.CGB line row spr) (cnt + 1)]
      simp [PPU.draw_all, hq]
    · have hqf : sprQual s line spr = false := by simpa using hq
      rw [hqf]
      simp only [Bool.not_false, if_true]
      rw [ih row cnt]
      simp [PPU.draw_all, hqf]

/-- C5 corrected: the per-line sprite cap keeps the first `SPR_PER_LINE`
qualifying sprites of the drawing order — which is descending x (ties:
higher table index first), i.e. the LOWEST-priority qualifying sprites —
and later qualifying sprites (the highest-priority ones) are not drawn at
all; the color variant draws every qualifying sprite. -/
theorem C5_sprite_cap (s : PPU) (row : Row) (line : Nat) :
    s.render_sprite_line row line GB.DMG
      = s.draw_all GB.DMG line row (takeQual (sprQual s line) SPR_PER_LINE s.sort_sprites)
    ∧ s.render_sprite_line row line GB.CGB
      = s.draw_all GB.CGB line row s.sort_sprites := by
  constructor
  · have h := draw_sprite_loop_dmg_eq s line s.sort_sprites row 0 (by omega)
    rw [PPU.render_sprite_line, h, Nat.sub_zero]
  · exact draw_sprite_loop_cgb_eq s line s.sort_sprites row 0

/-! Pixel-level lemmas about the sprite-drawing loop. -/

theorem writeColor_apply_ne (row : Row) (x y k : Nat) (c : RGBA) (hk : k < 4) (hxy : y ≠ x) :
    writeColor row x c (4 * y + k) = row (4 * y + k) := by
  rw [writeColor]
  rw [updf_other _ _ _ _ (show (4 * y + k) ≠ 4 * x + 3 from by omega)]
  rw [updf_other _ _ _ _ (show (4 * y + k) ≠ 4 * x + 2 from by omega)]
  rw [updf_other _ _ _ _ (show (4 * y + k) ≠ 4 * x + 1 from by omega)]
  rw [updf_other _ _ _ _ (show (4 * y + k) ≠ 4 * x from by omega)]

theorem writeColor_apply (row : Row) (x k : Nat) (c : RGBA) (hk : k < 4) :
    writeColor row x c (4 * x + k) = c.chan k := by
  interval_cases k <;>
    (rw [writeColor] ; simp only [updf, Nat.add_zero] ; split_ifs <;> first | rfl | omega)

/-- On the monochrome variant a column step never changes the `above_bg`
loop flag. -/
theorem sprStep_snd (s : PPU) (mode : GB) (line : Nat) (spr : Sprite) (acc : Row × Bool)
    (col : Nat) (h : mode ≠ GB.CGB) :
    (sprStep s mode line spr acc col).2 = acc.2 := by
  rw [sprStep]
  dsimp only
  rw [if_neg h]
  split_ifs <;> rfl

/-- A column step leaves every channel of a column it does not hit
unchanged. -/
theorem sprStep_fst_ne (s : PPU) (mode : GB) (line : Nat) (spr : Sprite) (acc : Row × Bool)
    (col c k : Nat) (hk : k < 4) (hne : sprPixelX spr col ≠ c) :
    (sprStep s mode line spr acc col).1 (4 * c + k) = acc.1 (4 * c + k) := by
  rw [sprStep]
  dsimp only
  split_ifs <;> first
    | rfl
    | exact writeColor_apply_ne _ _ _ _ _ hk (Ne.symm hne)

theorem foldl_sprStep_snd (s : PPU) (mode : GB) (line : Nat) (spr : Sprite)
    (h : mode ≠ GB.CGB) :
    ∀ (L : List Nat) (acc : Row × Bool),
      (L.foldl (sprStep s mode line spr) acc).2 = acc.2 := by
  intro L
  induction L with
  | nil => intro acc; rfl
  | cons col rest ih =>
    intro acc
    rw [List.foldl_cons, ih, sprStep_snd _ _ _ _ _ _ h]

theorem foldl_sprStep_fst_ne (s : PPU) (mode : GB) (line : Nat) (spr : Sprite) (c k : Nat)
    (hk : k < 4) :
    ∀ (L : List Nat) (acc : Row × Bool), (∀ col ∈ L, sprPixelX spr col ≠ c) →
      (L.foldl (sprStep s mode line spr) acc).1 (4 * c + k) = acc.1 (4 * c + k) := by
  intro L
  induction L with
  | nil => intro acc _; rfl
  | cons col rest ih =>
    intro acc h
    rw [List.foldl_cons, ih _ (fun col' hmem => h col' (List.mem_cons_of_mem _ hmem)),
      sprStep_fst_ne _ _ _ _ _ _ _ _ hk (h col (List.mem_cons_self _ _))]

/-- On the monochrome variant, a column step of an above-background sprite
at an on-screen column with an opaque pixel writes the sprite's color. -/
theorem sprStep_fst_write (s : PPU) (line : Nat) (spr : Sprite) (acc : Row × Bool)
    (col c k : Nat) (hk : k < 4) (hx : sprPixelX spr col = c) (hlt : c < SCREEN_WIDTH)
    (hpv : sprPixelVal s line spr col ≠ 0) (hab : acc.2 = true) :
    (sprStep s GB.DMG line spr acc col).1 (4 * c + k)
      = (sprColor s spr (sprPixelVal s line spr col)).chan k := by
  rw [sprStep]
  dsimp only
  rw [hx]
  rw [if_neg (show ¬ c ≥ SCREEN_WIDTH from by omega)]
  rw [if_neg (show ¬ (GB.DMG = GB.CGB) from by intro hx'; cases hx')]
  dsimp only
  have hcond : (sprPixelVal s line spr col != 0
      && (acc.2 || rowEqColor acc.1 c (s.palette.get_spr_pal spr.get_pal 0))) = true := by
    rw [hab]
    simp [bne_iff_ne, hpv]
  rw [if_pos hcond]
  dsimp only
  rw [if_neg (show ¬ (GB.DMG = GB.CGB) from by intro hx'; cases hx')]
  exact writeColor_apply _ _ _ _ hk

/-- A sprite whose eight columns all miss screen column `c` leaves `c`
unchanged. -/
theorem draw_sprite_apply_ne (s : PPU) (mode : GB) (line : Nat) (row : Row) (spr : Sprite)
    (c k : Nat) (hk : k < 4) (hc : ∀ col, col < TILESIZE → sprPixelX spr col ≠ c) :
    s.draw_sprite mode line row spr (4 * c + k) = row (4 * c + k) := by
  rw [PPU.draw_sprite]
  exact foldl_sprStep_fst_ne s mode line spr c k hk (List.range TILESIZE) (row, spr.is_above_bkgd)
    (fun col hmem => hc col (List.mem_range.mp hmem))

/-- On the monochrome variant, an above-background sprite with an opaque
pixel at on-screen column `c` (hit by exactly one of its eight columns)
paints `c` with its color, whatever the row held before. -/
theorem draw_sprite_apply_write (s : PPU) (line : Nat) (row : Row) (spr : Sprite)
    (c col₀ k : Nat) (hk : k < 4) (hcol : col₀ < TILESIZE)
    (hx : sprPixelX spr col₀ = c) (hlt : c < SCREEN_WIDTH)
    (hinj : ∀ col', col' < TILESIZE → col' ≠ col₀ → sprPixelX spr col' ≠ c)
    (hpv : sprPixelVal s line spr col₀ ≠ 0) (hab : spr.is_above_bkgd = true) :
    s.draw_sprite GB.DMG line row spr (4 * c + k)
      = (sprColor s spr (sprPixelVal s line spr col₀)).chan k := by
  rw [PPU.draw_sprite]
  have hsplit : List.range TILESIZE
      = List.range' 0 col₀ ++ List.range' col₀ (TILESIZE - col₀) := by
    have h2 : TILESIZE - col₀ + col₀ = TILESIZE := by omega
    have h3 := List.range'_append_1 0 col₀ (TILESIZE - col₀)
    rw [Nat.zero_add] at h3
    calc List.range TILESIZE = List.range' 0 TILESIZE := List.range_eq_range' _
      _ = List.range' 0 (TILESIZE - col₀ + col₀) := congrArg (fun n => List.range' 0 n) h2.symm
      _ = List.range' 0 col₀ ++ List.range' col₀ (TILESIZE - col₀) := h3.symm
  have hsplit2 : List.range' col₀ (TILESIZE - col₀)
      = col₀ :: List.range' (col₀ + 1) (TILESIZE - (col₀ + 1)) := by
    rw [show TILESIZE - col₀ = (TILESIZE - (col₀ + 1)) + 1 from by omega, List.range'_succ]
  rw [hsplit, hsplit2, List.foldl_append, List.foldl_cons]
  set acc1 := (List.range' 0 col₀).foldl (sprStep s GB.DMG line spr) (row, spr.is_above_bkgd)
    with hacc1
  have hsnd : acc1.2 = true := by
    rw [hacc1, foldl_sprStep_snd s GB.DMG line spr (by intro hx'; cases hx')]
    exact hab
  rw [foldl_sprStep_fst_ne s GB.DMG line spr c k hk _ _ ?later]
  · exact sprStep_fst_write s line spr acc1 col₀ c k hk hx hlt hpv hsnd
  · intro col' hmem
    have := List.mem_range'_1.mp hmem
    exact hinj col' (by omega) (by omega)

/-- Unfolding `draw_all` one sprite at a time. -/
theorem draw_all_cons (s : PPU) (mode : GB) (line : Nat) (row : Row) (spr : Sprite)
    (rest : List Sprite) :
    s.draw_all mode line row (spr :: rest)
      = s.draw_all mode line
          (if sprQual s line spr then s.draw_sprite mode line row spr else row) rest := rfl

/-- `draw_all` leaves a channel of a column unchanged when no qualifying
sprite of the list can hit that column. -/
theorem draw_all_apply_ne (s : PPU) (mode : GB) (line : Nat) (c k : Nat) (hk : k < 4) :
    ∀ (sprites : List Sprite) (row : Row),
      (∀ spr ∈ sprites, sprQual s line spr = true →
        ∀ col, col < TILESIZE → sprPixelX spr col ≠ c) →
      s.draw_all mode line row sprites (4 * c + k) = row (4 * c + k) := by
  intro sprites
  induction sprites with
  | nil => intro row _; rfl
  | cons spr rest ih =>
    intro row h
    rw [draw_all_cons]
    by_cases hq : sprQual s line spr = true
    · rw [if_pos hq, ih _ (fun spr' hmem => h spr' (List.mem_cons_of_mem _ hmem))]
      exact draw_sprite_apply_ne s mode line row spr c k hk
        (h spr (List.mem_cons_self _ _) hq)
    · rw [if_neg hq, ih _ (fun spr' hmem => h spr' (List.mem_cons_of_mem _ hmem))]

/-- A tile whose 16 bytes are all 0xFF: every pixel has color index 3. -/
def tileFF : Tile := ⟨fun _ => 0xFF⟩

/-- Sprite `i` of the C5 scenario: raw position (16, 8·(i+1)) — screen row
0, screen columns 8i..8i+7 — tile 1, no flips, above background. -/
def sprC5 (i : Nat) : Sprite := ⟨16, 8 * (i + 1), 1, 0, 0, 0⟩

/-- The opaque-white row every scanline render starts from. -/
def rowC5 : Row := fun _ => 0xFF

/-- The C5 scenario: 12 qualifying opaque sprites at distinct x on
scanline 0 (table slots 0-11), 8x8 sprite size, OBP0 = 0xE4 so color
index 3 maps to black. -/
def ppuC5 : PPU := { PPU.new with
  oam := fun i => if i < 12 then sprC5 i else Sprite.new,
  tiles := fun j => if j = 1 then tileFF else Tile.new,
  ioreg := updf (updf (fun _ => 0) (LCDC - IO_START) 2) (OBP0 - IO_START) 0xE4 }

/-- C5 counterexample: 12 sprites qualify on scanline 0 with opaque
pixels; sprite 0 has the lowest x (the highest priority), yet in the
monochrome render its screen column 0 keeps the default white (255) — it
is not drawn — while the lowest-priority sprite 11 paints its column 88
black (0).  The cap thus keeps the 10 LOWEST-priority sprites, not the 10
highest-priority ones the claim states. -/
theorem C5_sprite_cap_counterexample :
    ((List.range 40).filter (fun i => sprQual ppuC5 0 (ppuC5.oam i))).length = 12
    ∧ sprQual ppuC5 0 (ppuC5.oam 0) = true
    ∧ sprPixelVal ppuC5 0 (ppuC5.oam 0) 0 ≠ 0
    ∧ (ppuC5.oam 0).get_coords.1 < (ppuC5.oam 11).get_coords.1
    ∧ ppuC5.render_sprite_line rowC5 0 GB.DMG 0 = 255
    ∧ rowC5 0 = 255
    ∧ (sprColor ppuC5 (ppuC5.oam 0) 3).chan 0 = 0
    ∧ ppuC5.render_sprite_line rowC5 0 GB.DMG (4 * 88) = 0
    ∧ sprPixelX (ppuC5.oam 11) 0 = 88 := by
  have h1 := draw_sprite_loop_dmg_eq ppuC5 0 ppuC5.sort_sprites rowC5 0 (by omega)
  rw [Nat.sub_zero] at h1
  have htake : takeQual (sprQual ppuC5 0) SPR_PER_LINE ppuC5.sort_sprites
      = [sprC5 11, sprC5 10, sprC5 9, sprC5 8, sprC5 7,
         sprC5 6, sprC5 5, sprC5 4, sprC5 3, sprC5 2] := by decide
  refine ⟨by decide, by decide, by decide, by decide, ?_, rfl, by decide, ?_, by decide⟩
  · show ppuC5.render_sprite_line rowC5 0 GB.DMG (4 * 0 + 0) = 255
    rw [PPU.render_sprite_line, h1, htake]
    rw [draw_all_apply_ne ppuC5 GB.DMG 0 0 0 (by omega) _ rowC5 (by decide)]
    rfl
  · show ppuC5.render_sprite_line rowC5 0 GB.DMG (4 * 88 + 0) = 0
    rw [PPU.render_sprite_line, h1, htake, draw_all_cons]
    rw [if_pos (show sprQual ppuC5 0 (sprC5 11) = true by decide)]
    rw [draw_all_apply_ne ppuC5 GB.DMG 0 88 0 (by omega) _ _ (by decide)]
    rw [draw_sprite_apply_write ppuC5 0 rowC5 (sprC5 11) 88 0 0 (by omega) (by decide)
      (by decide) (by decide) (by decide) (by decide) (by decide)]
    decide

/-- `draw_all` skips a list with no qualifying sprite. -/
theorem draw_all_skip (s : PPU) (mode : GB) (line : Nat) :
    ∀ (L : List Sprite) (row : Row), (∀ x ∈ L, sprQual s line x = false) →
      s.draw_all mode line row L = row := by
  intro L
  induction L with
  | nil => intro row _; rfl
  | cons spr rest ih =>
    intro row h
    rw [draw_all_cons, if_neg (by simp [h spr (List.mem_cons_self _ _)]),
      ih row (fun x hx => h x (List.mem_cons_of_mem _ hx))]

/-- `draw_all` over an append processes the two parts in order. -/
theorem draw_all_append (s : PPU) (mode : GB) (line : Nat) (L₁ L₂ : List Sprite) (row : Row) :
    s.draw_all mode line row (L₁ ++ L₂)
      = s.draw_all mode line (s.draw_all mode line row L₁) L₂ :=
  List.foldl_append _ _ _ _

/-- When a list holds at most `n` qualifying sprites, the `takeQual`
prefix is the whole list. -/
theorem takeQual_of_count (q : Sprite → Bool) :
    ∀ (L : List Sprite) (n : Nat), (L.filter q).length ≤ n → takeQual q n L = L := by
  intro L
  induction L with
  | nil => intro n _; rfl
  | cons x rest ih =>
    intro n h
    by_cases hq : q x
    · cases n with
      | zero =>
        exfalso
        rw [List.filter_cons, if_pos hq] at h
        simp at h
      | succ m =>
        have hrest : (rest.filter q).length ≤ m := by
          rw [List.filter_cons, if_pos hq] at h
          simpa using h
        simp [takeQual, hq, ih m hrest]
    · have hrest : (rest.filter q).length ≤ n := by
        rwa [List.filter_cons, if_neg hq] at h
      simp [takeQual, hq, ih n hrest]

/-- Filtering the image of `range n` when exactly one index qualifies. -/
theorem filter_map_range_one {α : Type} (f : Nat → α) (p : α → Bool) :
    ∀ (n i : Nat), i < n → p (f i) = true → (∀ m, m < n → m ≠ i → p (f m) = false) →
      ((List.range n).map f).filter p = [f i] := by
  intro n
  induction n with
  | zero => intro i hi; omega
  | succ n ih =>
    intro i hi hp hothers
    rw [List.range_succ, List.map_append, List.filter_append]
    by_cases hin : i = n
    · subst hin
      have hnil : ((List.range i).map f).filter p = [] := by
        rw [List.filter_eq_nil_iff]
        intro x hx
        obtain ⟨m, hm, rfl⟩ := List.mem_map.mp hx
        have := hothers m (by simpa using Nat.lt_succ_of_lt (List.mem_range.mp hm)) (by
          have := List.mem_range.mp hm
          omega)
        simp [this]
      rw [hnil]
      simp [hp]
    · have hi' : i < n := by omega
      rw [ih i hi' hp (fun m hm hmi => hothers m (by omega) hmi)]
      have hn : p (f n) = false := hothers n (by omega) (fun h => hin h.symm)
      simp [hn]

/-- Filtering the image of `range n` when exactly two indices qualify. -/
theorem filter_map_range_two {α : Type} (f : Nat → α) (p : α → Bool) :
    ∀ (n i j : Nat), i < j → j < n → p (f i) = true → p (f j) = true →
      (∀ m, m < n → m ≠ i → m ≠ j → p (f m) = false) →
      ((List.range n).map f).filter p = [f i, f j] := by
  intro n
  induction n with
  | zero => intro i j _ hj; omega
  | succ n ih =>
    intro i j hij hj hpi hpj hothers
    rw [List.range_succ, List.map_append, List.filter_append]
    by_cases hjn : j = n
    · subst hjn
      rw [filter_map_range_one f p j i hij hpi
        (fun m hm hmi => hothers m (by omega) hmi (by omega))]
      simp [hpj]
    · have hj' : j < n := by omega
      rw [ih i j hij hj' hpi hpj (fun m hm h1 h2 => hothers m (by omega) h1 h2)]
      have hn : p (f n) = false := hothers n (by omega) (by omega) (by omega)
      simp [hn]

/-- The pair `[j, i]` with `i < j` appears in order inside the reversed
`range n`. -/
theorem pair_sublist_reverse_range (i j n : Nat) (hij : i < j) (hj : j < n) :
    List.Sublist [j, i] ((List.range n).reverse) := by
  have h1 : List.Sublist [i, j] (List.range n) := by
    have h2 : List.Sublist ([i] ++ [j]) (List.range j ++ [j]) := by
      apply List.Sublist.append
      · simpa using List.mem_range.mpr hij
      · exact List.Sublist.refl _
    have h3 : List.range j ++ [j] = List.range (j + 1) := (List.range_succ j).symm
    have h4 : List.Sublist (List.range (j + 1)) (List.range n) := List.range_sublist.mpr (by omega)
    exact (h3 ▸ h2).trans h4
  have := h1.reverse
  simpa using this

/-- C6: when exactly two sprites (table slots `i` and `j`) qualify on a
scanline in the monochrome variant, both with opaque pixels at the same
on-screen column `c`, and slot `i` has priority — strictly lower
x-coordinate, or equal x and lower table index — then slot `i`'s sprite
contributes the final pixel at `c`, regardless of the order of the table
slots. -/
theorem C6_sprite_priority (s : PPU) (row : Row) (line : Nat) (i j c col_a col_b k : Nat)
    (hi : i < OAM_SPR_NUM) (hj : j < OAM_SPR_NUM) (hij : i ≠ j)
    (hqa : sprQual s line (s.oam i) = true)
    (hqb : sprQual s line (s.oam j) = true)
    (hothers : ∀ m, m < OAM_SPR_NUM → m ≠ i → m ≠ j → sprQual s line (s.oam m) = false)
    (hpri : (s.oam i).get_coords.1 < (s.oam j).get_coords.1
          ∨ ((s.oam i).get_coords.1 = (s.oam j).get_coords.1 ∧ i < j))
    (hcola : col_a < TILESIZE) (hxa : sprPixelX (s.oam i) col_a = c)
    (hinja : ∀ col', col' < TILESIZE → col' ≠ col_a → sprPixelX (s.oam i) col' ≠ c)
    (hpa : sprPixelVal s line (s.oam i) col_a ≠ 0)
    (hcolb : col_b < TILESIZE) (hxb : sprPixelX (s.oam j) col_b = c)
    (hpb : sprPixelVal s line (s.oam j) col_b ≠ 0)
    (habove : (s.oam i).is_above_bkgd = true)
    (hc : c < SCREEN_WIDTH) (hk : k < 4) :
    s.render_sprite_line row line GB.DMG (4 * c + k)
      = (sprColor s (s.oam i) (sprPixelVal s line (s.oam i) col_a)).chan k := by
  have hmem_i : s.oam i ∈ s.sort_sprites := by
    rw [PPU.sort_sprites, (List.perm_insertionSort spriteGe _).mem_iff, List.mem_reverse,
      PPU.oam_list]
    exact List.mem_map.mpr ⟨i, List.mem_range.mpr hi, rfl⟩
  have hmem_j : s.oam j ∈ s.sort_sprites := by
    rw [PPU.sort_sprites, (List.perm_insertionSort spriteGe _).mem_iff, List.mem_reverse,
      PPU.oam_list]
    exact List.mem_map.mpr ⟨j, List.mem_range.mpr hj, rfl⟩
  have hFp : List.Perm (s.sort_sprites.filter (sprQual s line))
      (s.oam_list.filter (sprQual s line)) := by
    have h1 : List.Perm s.sort_sprites s.oam_list := by
      rw [PPU.sort_sprites]
      exact (List.perm_insertionSort spriteGe _).trans (List.reverse_perm _)
    exact h1.filter _
  have hlen2 : (s.sort_sprites.filter (sprQual s line)).length = 2 := by
    have hode : (s.oam_list.filter (sprQual s line)).length = 2 := by
      rcases Nat.lt_or_gt_of_ne hij with h | h
      · rw [PPU.oam_list,
          filter_map_range_two s.oam (sprQual s line) OAM_SPR_NUM i j h hj hqa hqb hothers]
        rfl
      · rw [PPU.oam_list,
          filter_map_range_two s.oam (sprQual s line) OAM_SPR_NUM j i h hi hqb hqa
            (fun m hm h1 h2 => hothers m hm h2 h1)]
        rfl
    rw [hFp.length_eq]
    exact hode
  have horder : s.sort_sprites.filter (sprQual s line) = [s.oam j, s.oam i] := by
    rcases hpri with hxlt | ⟨hxeq, hij2⟩
    · -- strictly lower x: use sortedness (descending x) of the filter
      have hFpw : List.Pairwise spriteGe (s.sort_sprites.filter (sprQual s line)) := by
        refine List.Pairwise.sublist (List.filter_sublist _) ?_
        rw [PPU.sort_sprites]
        exact List.sorted_insertionSort spriteGe _
      obtain ⟨u, F', hF1⟩ : ∃ u F', s.sort_sprites.filter (sprQual s line) = u :: F' := by
        cases hcase : s.sort_sprites.filter (sprQual s line) with
        | nil => rw [hcase] at hlen2; simp at hlen2
        | cons u F' => exact ⟨u, F', rfl⟩
      obtain ⟨v, hF2⟩ : ∃ v, F' = [v] := by
        rw [hF1] at hlen2
        cases hcase : F' with
        | nil => rw [hcase] at hlen2; simp at hlen2
        | cons v F'' =>
          cases hcase2 : F'' with
          | nil =>
            subst hcase2
            exact ⟨v, rfl⟩
          | cons w t => rw [hcase, hcase2] at hlen2; simp at hlen2
      have hF : s.sort_sprites.filter (sprQual s line) = [u, v] := by rw [hF1, hF2]
      have hmemFa : s.oam i ∈ [u, v] := by
        rw [← hF]
        exact List.mem_filter.mpr ⟨hmem_i, hqa⟩
      have hmemFb : s.oam j ∈ [u, v] := by
        rw [← hF]
        exact List.mem_filter.mpr ⟨hmem_j, hqb⟩
      have hge : spriteGe u v := by
        rw [hF] at hFpw
        exact (List.pairwise_cons.mp hFpw).1 v (List.mem_singleton.mpr rfl)
      have hane : s.oam i ≠ s.oam j := by
        intro heq
        rw [heq] at hxlt
        omega
      rcases List.mem_pair.mp hmemFa with hau | hav
      · exfalso
        rcases List.mem_pair.mp hmemFb with hbu | hbv
        · exact hane (hau.trans hbu.symm)
        · have hle : (s.oam j).get_coords.1 ≤ (s.oam i).get_coords.1 := by
            rw [hau, hbv]
            exact hge
          omega
      · rcases List.mem_pair.mp hmemFb with hbu | hbv
        · rw [hF, ← hav, ← hbu]
        · exact absurd (hav.trans hbv.symm) hane
    · -- equal x: by stability the earlier slot keeps iterating later
      have hba : List.Sublist [s.oam j, s.oam i] s.oam_list.reverse := by
        have h1 := pair_sublist_reverse_range i j OAM_SPR_NUM hij2 hj
        have h2 := h1.map s.oam
        rw [PPU.oam_list]
        simpa [List.map_reverse] using h2
      have hpw2 : List.Pairwise spriteGe [s.oam j, s.oam i] := by
        refine List.pairwise_pair.mpr ?_
        show (s.oam i).get_coords.1 ≤ (s.oam j).get_coords.1
        omega
      have hsub : List.Sublist [s.oam j, s.oam i] s.sort_sprites := by
        rw [PPU.sort_sprites]
        exact List.sublist_insertionSort hpw2 hba
      have hsubF : List.Sublist [s.oam j, s.oam i]
          (s.sort_sprites.filter (sprQual s line)) := by
        have h3 := hsub.filter (sprQual s line)
        rwa [show List.filter (sprQual s line) [s.oam j, s.oam i] = [s.oam j, s.oam i] from by
          simp [List.filter, hqa, hqb]] at h3
      exact (hsubF.eq_of_length (by rw [hlen2]; rfl)).symm
  have h1 := draw_sprite_loop_dmg_eq s line s.sort_sprites row 0 (by omega)
  rw [Nat.sub_zero] at h1
  have htq : takeQual (sprQual s line) SPR_PER_LINE s.sort_sprites = s.sort_sprites :=
    takeQual_of_count (sprQual s line) s.sort_sprites SPR_PER_LINE
      (by rw [horder]; simp [SPR_PER_LINE])
  rw [PPU.render_sprite_line, h1, htq]
  obtain ⟨P, T, hPT, hPnq, hqb', hfT⟩ := List.filter_eq_cons_iff.mp horder
  obtain ⟨Q, R, hQR, hQnq, hqa', hfR⟩ := List.filter_eq_cons_iff.mp hfT
  rw [hQR] at hPT
  rw [hPT, draw_all_append,
    draw_all_skip s GB.DMG line P row (fun x hx => by simpa using hPnq x hx),
    draw_all_cons, if_pos hqb, draw_all_append,
    draw_all_skip s GB.DMG line Q _ (fun x hx => by simpa using hQnq x hx),
    draw_all_cons, if_pos hqa,
    draw_all_skip s GB.DMG line R _
      (fun x hx => by simpa using List.filter_eq_nil_iff.mp hfR x hx)]
  exact draw_sprite_apply_write s line _ (s.oam i) c col_a k hk hcola hxa hc hinja hpa habove

/-- C6 witness scenario: a tile whose pixels all have color index 3. -/
def tileC6 : Tile := ⟨fun _ => 0xFF⟩

/-- C6 witness scenario: a tile whose pixels all have color index 1. -/
def tileC6b : Tile := ⟨fun n => if n % 2 = 0 then 0xFF else 0⟩

/-- C6 witness scenario: sprite in table slot 2, raw position (16, 18)
(screen x 10), tile 1, above background. -/
def sprC6a : Sprite := ⟨16, 18, 1, 0, 0, 0⟩

/-- C6 witness scenario: sprite in table slot 5, same position, tile 2. -/
def sprC6b : Sprite := ⟨16, 18, 2, 0, 0, 0⟩

/-- Blank row for the C6 witness. -/
def rowC6 : Row := fun _ => 0xFF

/-- C6 witness scenario: two opaque overlapping sprites at the same x in
slots 2 and 5, OBP0 = 0xE4. -/
def ppuC6 : PPU := { PPU.new with
  oam := fun m => if m = 2 then sprC6a else if m = 5 then sprC6b else Sprite.new,
  tiles := fun t => if t = 1 then tileC6 else if t = 2 then tileC6b else Tile.new,
  ioreg := updf (fun _ => 0) (OBP0 - IO_START) 0xE4 }

/-- C6 witness: two opaque overlapping sprites at the same x = 10 in table
slots 2 and 5 — the slot-2 sprite is drawn on top (its black pixel, not
slot 5's gray one, is the final value at column 10). -/
theorem C6_sprite_priority_witness :
    ppuC6.render_sprite_line rowC6 0 GB.DMG (4 * 10 + 0)
      = (sprColor ppuC6 (ppuC6.oam 2) (sprPixelVal ppuC6 0 (ppuC6.oam 2) 0)).chan 0
    ∧ (sprColor ppuC6 (ppuC6.oam 2) (sprPixelVal ppuC6 0 (ppuC6.oam 2) 0)).chan 0 = 0
    ∧ (sprColor ppuC6 (ppuC6.oam 5) (sprPixelVal ppuC6 0 (ppuC6.oam 5) 0)).chan 0 = 170 :=
  ⟨C6_sprite_priority ppuC6 rowC6 0 2 5 10 0 0 0 (by decide) (by decide) (by decide)
      (by decide) (by decide) (by decide) (Or.inr ⟨by decide, by decide⟩)
      (by decide) (by decide) (by decide) (by decide) (by decide) (by decide)
      (by decide) (by decide) (by decide) (by decide),
   by decide, by decide⟩

end GameGirl
